import Mathlib

/-!
# ActiveMQ-CPP: transport, failover and STOMP message properties

A shallow embedding of three parts of the client library:

* `StompMessage` (connector/stomp/commands/StompMessage.h): the user-property
  accessors of a STOMP message and their reserved-header test;
* `IOTransport` (transport/IOTransport.cpp): `oneway`, `start`, `close`,
  `request` as state transformers that also log the calls they make on their
  collaborators, and the worker loop `run`;
* `ReconnectTask` (transport/failover/ReconnectTask.cpp): one `iterate` cycle;
* `Guid` (decaf/util/Guid.h, with GuidTest.cpp): bytes, string and comparisons;
* `ActiveMQBytesMessageMarshaller` (wireformat/openwire/marshal/generated): the
  five marshalling operations over the base marshaller and the message hooks.

A C++ member function that may throw is a function from the object's state to
a pair: what the call returned or threw, and the state it left behind.
-/

namespace ActiveMQ

/-! ## Exceptions -/

/-- Exception classes thrown or caught by the embedded code.  Every class but
`Unknown` derives from `ActiveMQException`; `Unknown` stands for whatever only
a `catch( ... )` handler catches. -/
inductive ExceptionKind where
  | ActiveMQException
  | CommandIOException
  | UnsupportedOperationException
  | IllegalArgumentException
  | NoSuchElementException
  | RuntimeException
  | Unknown
  deriving DecidableEq, Repr

/-- An exception object: its class and its message. -/
structure Exception where
  kind : ExceptionKind
  message : String
  deriving DecidableEq, Repr

/-- Whether a handler `catch( exceptions::ActiveMQException& )` catches it. -/
def Exception.isActiveMQException (e : Exception) : Bool :=
  e.kind != ExceptionKind.Unknown

deriving instance DecidableEq for Except

/-- What a call leaves behind: the value it returned or the exception it
threw, and the state of the object after it. -/
abbrev Outcome (σ α : Type) := Except Exception α × σ

/-! ## STOMP frames and messages -/

/-- Modelled from the spec: `util::Properties` (absent from the sources) is the
frame's ordered mapping of header name to single-line string value. -/
structure Properties where
  entries : List (String × String)
  deriving DecidableEq, Repr

namespace Properties

/-- The test `hasProperty( name )`. -/
def hasProperty (p : Properties) (name : String) : Bool :=
  p.entries.any (fun e => e.1 == name)

/-- The lookup `getProperty( name )`; `none` when the name is not mapped. -/
def getProperty (p : Properties) (name : String) : Option String :=
  (p.entries.find? (fun e => e.1 == name)).map (fun e => e.2)

/-- The update `setProperty( name, value )`: a mapped name keeps its place and
takes the new value, a new name is added at the end. -/
def setProperty (p : Properties) (name value : String) : Properties :=
  if p.hasProperty name then
    { entries := p.entries.map (fun e => if e.1 == name then (e.1, value) else e) }
  else
    { entries := p.entries ++ [(name, value)] }

/-- The removal `remove( name )`. -/
def remove (p : Properties) (name : String) : Properties :=
  { entries := p.entries.filter (fun e => e.1 != name) }

/-- The listing `toArray()`: the name/value pairs in the mapping's order. -/
def toArray (p : Properties) : List (String × String) :=
  p.entries

end Properties

/-- Modelled from the spec: `StompFrame` (absent from the sources) is the
triple of command verb, ordered header mapping and byte body. -/
structure StompFrame where
  command : String
  properties : Properties
  body : List Nat
  deriving DecidableEq, Repr

namespace CommandConstants

/-- Modelled from the spec: the closed set of reserved header names of the
text protocol (`CommandConstants` is absent from the sources). -/
def stompHeaders : List String :=
  ["destination", "reply-to", "message-id", "correlation-id", "expires",
   "persistent", "priority", "redelivered", "timestamp", "type",
   "content-length", "ack", "transaction", "subscription", "selector",
   "receipt", "receipt-id", "login", "passcode", "client-id", "session",
   "redelivery-count"]

/-- Modelled from the spec: `CommandConstants::isStompHeader( name )` holds
exactly for the reserved header names. -/
def isStompHeader (name : String) : Bool :=
  stompHeaders.contains name

/-- Modelled from the spec: the text of `CommandConstants::HEADER_EXPIRES`
(`CommandConstants` is absent from the sources), the reserved header
`expires`. -/
def HEADER_EXPIRES : String :=
  "expires"

end CommandConstants

/-- The state of a `StompMessage<T>`: the frame held by `AbstractCommand`, and
the members `ackHandler`, `dest` and `replyTo` (handles and provider strings;
`none` is `NULL`). -/
structure StompMessage where
  frame : StompFrame
  ackHandler : Option Nat
  dest : Option String
  replyTo : Option String
  deriving DecidableEq, Repr

namespace StompMessage

/-- Modelled from the spec: `AbstractCommand::setPropertyValue( name, value )`
(absent from the sources) stores the header in the frame's mapping. -/
def setPropertyValue (m : StompMessage) (name value : String) : StompMessage :=
  { m with frame := { m.frame with properties := m.frame.properties.setProperty name value } }

/-- `StompMessage::testProperty`: throws when the name is that of a pre-defined
header. -/
def testProperty (name : String) : Except Exception Unit :=
  if CommandConstants.isStompHeader name then
    Except.error ⟨ExceptionKind.IllegalArgumentException,
      "searching for property with name of pre-defined header"⟩
  else
    Except.ok ()

/-- `StompMessage::setStrictPropertyValue<TYPE>`: tests the name, writes the
value to a string stream (`insert` is `operator<<` at `TYPE`) and stores the
text. -/
def setStrictPropertyValue {TYPE : Type} (insert : TYPE → String)
    (m : StompMessage) (name : String) (value : TYPE) : Outcome StompMessage Unit :=
  match testProperty name with
  | Except.error e => (Except.error e, m)
  | Except.ok () => (Except.ok (), m.setPropertyValue name (insert value))

/-- Stream insertion of an `unsigned char`: the one character with that code. -/
def insertByte (b : Nat) : String :=
  String.singleton (Char.ofNat b)

/-- Stream insertion of a `short`, `int` or `long long`: decimal text, with a
leading minus sign for a negative value. -/
def insertInteger (n : Int) : String :=
  toString n

/-- `StompMessage::setBooleanProperty`. -/
def setBooleanProperty (m : StompMessage) (name : String) (value : Bool) :
    Outcome StompMessage Unit :=
  match testProperty name with
  | Except.error e => (Except.error e, m)
  | Except.ok () =>
    let strvalue := if value then "true" else "false"
    (Except.ok (), m.setPropertyValue name strvalue)

/-- `StompMessage::setByteProperty`. -/
def setByteProperty (m : StompMessage) (name : String) (value : Nat) :
    Outcome StompMessage Unit :=
  setStrictPropertyValue insertByte m name value

/-- `StompMessage::setDoubleProperty`; the type `double` and its stream
insertion are parameters. -/
def setDoubleProperty {Double : Type} (insert : Double → String)
    (m : StompMessage) (name : String) (value : Double) : Outcome StompMessage Unit :=
  setStrictPropertyValue insert m name value

/-- `StompMessage::setFloatProperty`; the type `float` and its stream insertion
are parameters. -/
def setFloatProperty {Single : Type} (insert : Single → String)
    (m : StompMessage) (name : String) (value : Single) : Outcome StompMessage Unit :=
  setStrictPropertyValue insert m name value

/-- `StompMessage::setIntProperty`. -/
def setIntProperty (m : StompMessage) (name : String) (value : Int) :
    Outcome StompMessage Unit :=
  setStrictPropertyValue insertInteger m name value

/-- `StompMessage::setLongProperty`. -/
def setLongProperty (m : StompMessage) (name : String) (value : Int) :
    Outcome StompMessage Unit :=
  setStrictPropertyValue insertInteger m name value

/-- `StompMessage::setShortProperty`. -/
def setShortProperty (m : StompMessage) (name : String) (value : Int) :
    Outcome StompMessage Unit :=
  setStrictPropertyValue insertInteger m name value

/-- `StompMessage::setStringProperty`. -/
def setStringProperty (m : StompMessage) (name value : String) :
    Outcome StompMessage Unit :=
  match testProperty name with
  | Except.error e => (Except.error e, m)
  | Except.ok () => (Except.ok (), m.setPropertyValue name value)

/-- The exception `testProperty` throws. -/
def reservedNameError : Exception :=
  ⟨ExceptionKind.IllegalArgumentException,
    "searching for property with name of pre-defined header"⟩

end StompMessage

/-! ## The I/O transport -/

/-- Modelled from the spec: a `Command` (absent from the sources) has an
integer type tag, an optional correlation identifier, a response-required flag
and a payload. -/
structure Command where
  typeTag : Nat
  correlationId : Option Nat
  responseRequired : Bool
  payload : List Nat
  deriving DecidableEq, Repr

/-- A `Response` is a command answering a request. -/
structure Response where
  command : Command
  deriving DecidableEq, Repr

/-- An input or output stream as the transport sees it: an identity, and what
its `close()` does (`some e`: it throws `e`). -/
structure Stream where
  id : Nat
  closeThrows : Option Exception
  deriving DecidableEq, Repr

/-- The polling thread as the transport sees it: what `start()` and `join()`
do (`some e`: the call throws `e`). -/
structure Thread where
  startThrows : Option Exception
  joinThrows : Option Exception
  deriving DecidableEq, Repr

/-- A `CommandReader`, known by its identity. -/
structure CommandReader where
  id : Nat
  deriving DecidableEq, Repr

/-- A `CommandWriter`: what `writeCommand( command )` does (`some e`: it throws
`e`; `none`: the command is written). -/
structure CommandWriter where
  writeThrows : Command → Option Exception

/-- What the transport does that another thread or a collaborator can see, in
program order: the assignment `closed = true` and the calls on the streams,
the reader, the writer and the thread. -/
inductive Event where
  | setClosed
  | closeInputStream (s : Stream)
  | joinThread (t : Thread)
  | closeOutputStream (s : Stream)
  | lockOutputStream (s : Stream)
  | writeCommand (c : Command)
  | unlockOutputStream (s : Stream)
  | readerSetInputStream (r : CommandReader) (s : Stream)
  | writerSetOutputStream (s : Stream)
  | startThread (t : Thread)
  deriving DecidableEq, Repr

/-- The members of `IOTransport` (`none` is `NULL`; listeners are handles),
and the log of what it has done so far. -/
structure IOTransport where
  listener : Option Nat
  reader : Option CommandReader
  writer : Option CommandWriter
  exceptionListener : Option Nat
  inputStream : Option Stream
  outputStream : Option Stream
  closed : Bool
  thread : Option Thread
  log : List Event

/-- The class of the exception a call threw, if it threw. -/
def thrownKind {σ α : Type} (r : Outcome σ α) : Option ExceptionKind :=
  match r.1 with
  | Except.error e => some e.kind
  | Except.ok _ => none

/-- Sequencing of two statements: the second runs on the state the first left,
unless the first threw. -/
def andThen {σ : Type} (r : Outcome σ Unit) (k : σ → Outcome σ Unit) : Outcome σ Unit :=
  match r.1 with
  | Except.ok () => k r.2
  | Except.error e => (Except.error e, r.2)

namespace IOTransport

/-- The constructor `IOTransport::IOTransport()`. -/
def new : IOTransport :=
  { listener := none, reader := none, writer := none, exceptionListener := none,
    inputStream := none, outputStream := none, closed := false, thread := none,
    log := [] }

/-- Appends an event to the log. -/
def record (t : IOTransport) (e : Event) : IOTransport :=
  { t with log := t.log ++ [e] }

/-- `IOTransport::oneway`.  A `NULL` writer on a started transport is a null
dereference in the source; it is shown as an exception of unknown class. -/
def oneway (t : IOTransport) (command : Option Command) : Outcome IOTransport Unit :=
  if t.closed then
    (Except.error ⟨ExceptionKind.CommandIOException,
      "IOTransport::oneway() - transport is closed!"⟩, t)
  else if t.thread.isNone then
    (Except.error ⟨ExceptionKind.CommandIOException,
      "IOTransport::oneway() - transport is not started"⟩, t)
  else
    match command with
    | none =>
      (Except.error ⟨ExceptionKind.CommandIOException,
        "IOTransport::oneway() - attempting to write NULL command"⟩, t)
    | some c =>
      match t.outputStream with
      | none =>
        (Except.error ⟨ExceptionKind.CommandIOException,
          "IOTransport::oneway() - invalid output stream"⟩, t)
      | some o =>
        let t1 := t.record (Event.lockOutputStream o)
        match t.writer with
        | none =>
          (Except.error ⟨ExceptionKind.Unknown, "null writer"⟩,
            t1.record (Event.unlockOutputStream o))
        | some w =>
          let t2 := t1.record (Event.writeCommand c)
          match w.writeThrows c with
          | some e => (Except.error e, t2.record (Event.unlockOutputStream o))
          | none => (Except.ok (), t2.record (Event.unlockOutputStream o))

/-- `IOTransport::start`; `newThread` is the thread `new Thread( this )`
yields. -/
def start (newThread : Thread) (t : IOTransport) : Outcome IOTransport Unit :=
  if t.closed then
    (Except.error ⟨ExceptionKind.CommandIOException,
      "IOTransport::start() - transport is already closed - cannot restart"⟩, t)
  else if t.thread.isSome then
    (Except.ok (), t)
  else
    match t.inputStream, t.outputStream, t.reader, t.writer with
    | some i, some o, some r, some _ =>
      let t1 := (t.record (Event.readerSetInputStream r i)).record
        (Event.writerSetOutputStream o)
      let t2 := { t1 with thread := some newThread }.record (Event.startThread newThread)
      match newThread.startThrows with
      | some e => (Except.error e, t2)
      | none => (Except.ok (), t2)
    | _, _, _, _ =>
      (Except.error ⟨ExceptionKind.CommandIOException,
        "IOTransport::start() - IO sreams and reader/writer must be set before calling start"⟩,
        t)

/-- The statement of `close` that marks the transport as closed. -/
def markClosed (t : IOTransport) : Outcome IOTransport Unit :=
  (Except.ok (), { t with closed := true }.record Event.setClosed)

/-- The statement of `close` that closes and forgets the input stream. -/
def closeInput (t : IOTransport) : Outcome IOTransport Unit :=
  match t.inputStream with
  | none => (Except.ok (), t)
  | some i =>
    let t1 := t.record (Event.closeInputStream i)
    match i.closeThrows with
    | some e => (Except.error e, t1)
    | none => (Except.ok (), { t1 with inputStream := none })

/-- The statement of `close` that joins, deletes and forgets the thread. -/
def joinWorker (t : IOTransport) : Outcome IOTransport Unit :=
  match t.thread with
  | none => (Except.ok (), t)
  | some th =>
    let t1 := t.record (Event.joinThread th)
    match th.joinThrows with
    | some e => (Except.error e, t1)
    | none => (Except.ok (), { t1 with thread := none })

/-- The statement of `close` that closes and forgets the output stream. -/
def closeOutput (t : IOTransport) : Outcome IOTransport Unit :=
  match t.outputStream with
  | none => (Except.ok (), t)
  | some o =>
    let t1 := t.record (Event.closeOutputStream o)
    match o.closeThrows with
    | some e => (Except.error e, t1)
    | none => (Except.ok (), { t1 with outputStream := none })

/-- The handlers that end `close` (`AMQ_CATCH_RETHROW` and
`AMQ_CATCHALL_THROW` at `ActiveMQException`; the macros are absent from the
sources): an `ActiveMQException` is thrown on as an `ActiveMQException` with
its message, anything else as a new `ActiveMQException`. -/
def rethrowAsActiveMQException (r : Outcome IOTransport Unit) : Outcome IOTransport Unit :=
  match r.1 with
  | Except.ok () => r
  | Except.error e =>
    if e.isActiveMQException then
      (Except.error ⟨ExceptionKind.ActiveMQException, e.message⟩, r.2)
    else
      (Except.error ⟨ExceptionKind.ActiveMQException, "caught unknown exception"⟩, r.2)

/-- `IOTransport::close`. -/
def close (t : IOTransport) : Outcome IOTransport Unit :=
  rethrowAsActiveMQException
    (if t.closed then
      (Except.ok (), t)
    else
      andThen (andThen (andThen (markClosed t) closeInput) joinWorker) closeOutput)

/-- `IOTransport::request`. -/
def request (t : IOTransport) (_command : Option Command) : Outcome IOTransport Response :=
  (Except.error ⟨ExceptionKind.UnsupportedOperationException,
    "IOTransport::request() - unsupported operation"⟩, t)

/-- The state after `n` calls of `close` in a row. -/
def closeTimes : Nat → IOTransport → IOTransport
  | 0, t => t
  | n + 1, t => closeTimes n (close t).2

end IOTransport

/-- A call of one of the four operations of the transport. -/
inductive Call where
  | oneway (command : Option Command)
  | start (newThread : Thread)
  | close
  | request (command : Option Command)

/-- The state a call leaves. -/
def Call.stateAfter (c : Call) (t : IOTransport) : IOTransport :=
  match c with
  | Call.oneway command => (t.oneway command).2
  | Call.start newThread => (IOTransport.start newThread t).2
  | Call.close => t.close.2
  | Call.request command => (t.request command).2

/-- The state a sequence of calls leaves. -/
def stateAfterCalls (calls : List Call) (t : IOTransport) : IOTransport :=
  calls.foldl (fun s c => c.stateAfter s) t

/-! ### The worker -/

/-- What `reader->readCommand()` does at one call: it returns a command or it
throws. -/
inductive ReadResult where
  | command (c : Command)
  | throws (e : Exception)
  deriving DecidableEq, Repr

/-- What the worker meets in one pass of its loop: the value of `closed` that
the loop test reads, and what the read does if the pass gets to it. -/
structure Pass where
  closed : Bool
  read : ReadResult
  deriving DecidableEq, Repr

/-- What the worker does, in program order.  Modelled from the spec:
`IOTransport::fire` (in IOTransport.h, absent from the sources) hands a
command to the command listener and an exception to the exception listener. -/
inductive WorkerEvent where
  | readCommand
  | fireCommand (c : Command)
  | fireException (e : Exception)
  deriving DecidableEq, Repr

/-- The run of the worker over the passes it is given: what it did, whether
`run` returned, and whether the program was terminated inside a read (`run`
has neither returned nor been terminated when the passes end with the loop
still going). -/
structure WorkerResult where
  events : List WorkerEvent
  exited : Bool
  terminated : Bool
  deriving DecidableEq, Repr

/-- The exception the handlers of `run` pass to `fire`: an `ActiveMQException`
as caught, anything else as a new `ActiveMQException`. -/
def caughtByRun (e : Exception) : Exception :=
  if e.isActiveMQException then e
  else ⟨ExceptionKind.ActiveMQException, "IOTransport::run - caught unknown exception"⟩

/-- `IOTransport::run`.  `CommandReader::readCommand` is declared
`throw ( CommandIOException )` (CommandReader.h): an exception of that class
reaches the handlers of `run`; an exception of any other class that leaves the
read violates the declaration and ends in `std::unexpected`, which terminates
the program before a handler runs. -/
def IOTransport.run : List Pass → WorkerResult
  | [] => { events := [], exited := false, terminated := false }
  | p :: rest =>
    if p.closed then
      { events := [], exited := true, terminated := false }
    else
      match p.read with
      | ReadResult.command c =>
        let r := IOTransport.run rest
        { events := WorkerEvent.readCommand :: WorkerEvent.fireCommand c :: r.events,
          exited := r.exited, terminated := r.terminated }
      | ReadResult.throws e =>
        if e.kind = ExceptionKind.CommandIOException then
          { events := [WorkerEvent.readCommand, WorkerEvent.fireException (caughtByRun e)],
            exited := true, terminated := false }
        else
          { events := [WorkerEvent.readCommand], exited := false, terminated := true }

/-- The commands handed to the command listener, in order. -/
def WorkerResult.delivered (r : WorkerResult) : List Command :=
  r.events.filterMap (fun ev =>
    match ev with
    | WorkerEvent.fireCommand c => some c
    | _ => none)

/-- The exceptions passed to `fire`, in order. -/
def WorkerResult.reported (r : WorkerResult) : List Exception :=
  r.events.filterMap (fun ev =>
    match ev with
    | WorkerEvent.fireException e => some e
    | _ => none)

/-- The number of reads the worker made. -/
def WorkerResult.reads (r : WorkerResult) : Nat :=
  r.events.count WorkerEvent.readCommand

/-- The command a pass yields to the listener: the one its read returns, when
the loop test saw the transport open. -/
def Pass.yields (p : Pass) : Option Command :=
  if p.closed then none
  else
    match p.read with
    | ReadResult.command c => some c
    | ReadResult.throws _ => none

/-! ## The reconnect task of the failover transport -/

/-- Modelled from the spec: the state of the `FailoverTransport` supervisor
(absent from the sources): the live transport or none, the warm backups, the
pending sends, the reconnect attempt count and the terminal flag. -/
structure FailoverTransport where
  connectedTransport : Option Nat
  backups : List Nat
  buffer : List Command
  attempts : Nat
  closed : Bool
  deriving DecidableEq, Repr

/-- What `ReconnectTask::iterate` does that its parent or the task runner can
see, in program order. -/
inductive TaskEvent where
  | lockBackupMutex
  | doReconnect
  | unlockBackupMutex
  | buildBackups
  | wakeup
  deriving DecidableEq, Repr

/-- One cycle of the task: the value `iterate` returned, the parent it left
and what it did. -/
structure Cycle where
  result : Bool
  parent : FailoverTransport
  events : List TaskEvent
  deriving DecidableEq, Repr

/-- `ReconnectTask::iterate`.  The parent's `doReconnect` and `buildBackups`
are absent from the sources and are parameters: what `doReconnect` returns
with the parent it leaves, and the parent `buildBackups` leaves. -/
def ReconnectTask.iterate (doReconnect : FailoverTransport → Bool × FailoverTransport)
    (buildBackups : FailoverTransport → FailoverTransport)
    (parent : FailoverTransport) : Cycle :=
  let result := false
  let buildBackup := true
  -- synchronized( &( parent->backupMutex ) )
  let locked : (Bool × Bool) × FailoverTransport × List TaskEvent :=
    if parent.connectedTransport.isNone && !parent.closed then
      let r := doReconnect parent
      ((r.1, false), r.2, [TaskEvent.lockBackupMutex, TaskEvent.doReconnect,
        TaskEvent.unlockBackupMutex])
    else
      ((result, buildBackup), parent, [TaskEvent.lockBackupMutex,
        TaskEvent.unlockBackupMutex])
  let result := locked.1.1
  let buildBackup := locked.1.2
  let parent := locked.2.1
  let events := locked.2.2
  if buildBackup then
    { result := result, parent := buildBackups parent,
      events := events ++ [TaskEvent.buildBackups] }
  else
    -- build backups on the next iteration
    { result := true, parent := parent, events := events ++ [TaskEvent.wakeup] }

/-! ## Reading the properties of a STOMP message -/

/-- The characters `isspace` accepts in the C locale: the space and the
codes 9 to 13. -/
def isSpace (c : Char) : Bool :=
  c.toNat == 32 || (9 ≤ c.toNat && c.toNat ≤ 13)

/-- The text a `const char*` denotes: the characters before the first NUL. -/
def cString (s : String) : String :=
  String.mk (s.toList.takeWhile (fun c => c.toNat != 0))

/-- Stream extraction of a `std::string`: white space is skipped, then the
characters up to the next white space are taken; it fails when none is left. -/
def extractString (text : String) : Option String :=
  let token := (text.toList.dropWhile isSpace).takeWhile (fun c => !isSpace c)
  if token.isEmpty then none else some (String.mk token)

/-- Stream extraction of an `unsigned char`: white space is skipped, then one
character is taken; it fails when none is left. -/
def extractByte (text : String) : Option Nat :=
  match text.toList.dropWhile isSpace with
  | [] => none
  | c :: _ => some c.toNat

/-- The number a run of decimal digits denotes. -/
def digitsValue (digits : List Char) : Nat :=
  digits.foldl (fun acc c => 10 * acc + (c.toNat - 48)) 0

/-- Stream extraction of a signed integer type with the range `lo .. hi`:
white space is skipped, a sign may come first, then the longest run of decimal
digits is taken; it fails when there is no digit or the number is out of
range. -/
def extractInteger (lo hi : Int) (text : String) : Option Int :=
  let rest := text.toList.dropWhile isSpace
  let negative := rest.head? == some '-'
  let unsigned := if rest.head? == some '-' || rest.head? == some '+' then rest.tail else rest
  let digits := unsigned.takeWhile Char.isDigit
  if digits.isEmpty then none
  else
    let value : Int := if negative then -(digitsValue digits : Int) else (digitsValue digits : Int)
    if lo ≤ value ∧ value ≤ hi then some value else none

namespace StompMessage

/-- Modelled from the spec: `AbstractCommand::getPropertyValue( name )` (absent
from the sources) yields the header's value as a `const char*`, `NULL` (here
`none`) when the frame has no such header. -/
def getPropertyValue (m : StompMessage) (name : String) : Option String :=
  (m.frame.properties.getProperty name).map cString

/-- Modelled from the spec: `AbstractCommand::getPropertyValue( name, default )`
(absent from the sources) yields the header's value, or the default when the
frame has no such header. -/
def getPropertyValueOr (m : StompMessage) (name fallback : String) : String :=
  (m.frame.properties.getProperty name).getD fallback

/-- The loop of `clearProperties` over the array taken before it starts. -/
def clearPropertiesLoop : List (String × String) → Properties → Properties
  | [], props => props
  | e :: rest, props =>
    if !CommandConstants.isStompHeader e.1 then
      clearPropertiesLoop rest (props.remove e.1)
    else
      clearPropertiesLoop rest props

/-- `StompMessage::clearProperties`. -/
def clearProperties (m : StompMessage) : StompMessage :=
  let props := m.frame.properties
  let propArray := props.toArray
  { m with frame := { m.frame with properties := clearPropertiesLoop propArray props } }

/-- The loop of `getPropertyNames`: `names` is the vector built so far. -/
def getPropertyNamesLoop : List (String × String) → List String → List String
  | [], names => names
  | e :: rest, names =>
    if !CommandConstants.isStompHeader e.1 then
      getPropertyNamesLoop rest (names ++ [e.1])
    else
      getPropertyNamesLoop rest names

/-- `StompMessage::getPropertyNames`. -/
def getPropertyNames (m : StompMessage) : List String :=
  getPropertyNamesLoop m.frame.properties.toArray []

/-- `StompMessage::propertyExists`. -/
def propertyExists (m : StompMessage) (name : String) : Bool :=
  if CommandConstants.isStompHeader name then false
  else m.frame.properties.hasProperty name

/-- `StompMessage::getStrictPropertyValue<TYPE>`: tests the name, then the
presence of the property, then reads the value from a string stream made of
the property's text (`extract` is `operator>>` at `TYPE`).  A `NULL` text for
a property that is present does not occur; it is shown as an exception of
unknown class. -/
def getStrictPropertyValue {TYPE : Type} (extract : String → Option TYPE)
    (m : StompMessage) (name : String) : Outcome StompMessage TYPE :=
  match testProperty name with
  | Except.error e => (Except.error e, m)
  | Except.ok () =>
    if !m.frame.properties.hasProperty name then
      (Except.error ⟨ExceptionKind.NoSuchElementException,
        "property not available in message"⟩, m)
    else
      match m.getPropertyValue name with
      | none => (Except.error ⟨ExceptionKind.Unknown, "null property value"⟩, m)
      | some strProp =>
        match extract strProp with
        | none =>
          (Except.error ⟨ExceptionKind.RuntimeException,
            "Error extracting property from string"⟩, m)
        | some value => (Except.ok value, m)

/-- `StompMessage::getBooleanProperty`. -/
def getBooleanProperty (m : StompMessage) (name : String) : Outcome StompMessage Bool :=
  match getStrictPropertyValue extractString m name with
  | (Except.error e, m1) => (Except.error e, m1)
  | (Except.ok value, m1) => (Except.ok (value == "true"), m1)

/-- `StompMessage::getByteProperty`. -/
def getByteProperty (m : StompMessage) (name : String) : Outcome StompMessage Nat :=
  getStrictPropertyValue extractByte m name

/-- `StompMessage::getDoubleProperty`; the type `double` and its stream
extraction are parameters. -/
def getDoubleProperty {Double : Type} (extract : String → Option Double)
    (m : StompMessage) (name : String) : Outcome StompMessage Double :=
  getStrictPropertyValue extract m name

/-- `StompMessage::getFloatProperty`; the type `float` and its stream
extraction are parameters. -/
def getFloatProperty {Single : Type} (extract : String → Option Single)
    (m : StompMessage) (name : String) : Outcome StompMessage Single :=
  getStrictPropertyValue extract m name

/-- `StompMessage::getIntProperty`. -/
def getIntProperty (m : StompMessage) (name : String) : Outcome StompMessage Int :=
  getStrictPropertyValue (extractInteger (-2147483648) 2147483647) m name

/-- `StompMessage::getLongProperty`. -/
def getLongProperty (m : StompMessage) (name : String) : Outcome StompMessage Int :=
  getStrictPropertyValue (extractInteger (-9223372036854775808) 9223372036854775807) m name

/-- `StompMessage::getShortProperty`. -/
def getShortProperty (m : StompMessage) (name : String) : Outcome StompMessage Int :=
  getStrictPropertyValue (extractInteger (-32768) 32767) m name

/-- `StompMessage::getStringProperty`. -/
def getStringProperty (m : StompMessage) (name : String) : Outcome StompMessage String :=
  getStrictPropertyValue extractString m name

/-- The exception `getStrictPropertyValue` throws for a property that is not
in the message. -/
def missingPropertyError : Exception :=
  ⟨ExceptionKind.NoSuchElementException, "property not available in message"⟩

/-- `StompMessage::getCMSExpiration`; `parseLong` is `util::Long::parseLong`,
absent from the sources. -/
def getCMSExpiration (parseLong : String → Int) (m : StompMessage) : Int :=
  parseLong (m.getPropertyValueOr CommandConstants.HEADER_EXPIRES "0")

/-- `StompMessage::isExpired`; `currentTime` is what
`util::Date::getCurrentTimeMilliseconds()` returns at the call. -/
def isExpired (parseLong : String → Int) (currentTime : Int) (m : StompMessage) : Bool :=
  let expireTime := getCMSExpiration parseLong m
  if expireTime > 0 && currentTime > expireTime then true else false

end StompMessage

/-! ## Guid -/

/-- Modelled from the spec: the state of a `decaf::util::Guid` is its member
`uuid`, a `uuid_t` of 16 bytes (Guid.cpp is absent from the sources; the model
follows the declarations and their comments in Guid.h). -/
structure Guid where
  uuid : List (Fin 256)
  size : uuid.length = 16
  deriving DecidableEq

/-- The order of two byte arrays as `uuid_compare` reports it: negative, zero
or positive, decided by the first byte that differs. -/
def compareBytes : List (Fin 256) → List (Fin 256) → Int
  | [], [] => 0
  | [], _ :: _ => -1
  | _ :: _, [] => 1
  | a :: as, b :: bs =>
    if a < b then -1 else if b < a then 1 else compareBytes as bs

/-- The lower-case hexadecimal digit of a value below 16. -/
def hexDigit (n : Nat) : Char :=
  if n < 10 then Char.ofNat (48 + n) else Char.ofNat (87 + n)

/-- The value of a hexadecimal digit, of either case. -/
def hexValue (c : Char) : Option Nat :=
  if 48 ≤ c.toNat ∧ c.toNat ≤ 57 then some (c.toNat - 48)
  else if 97 ≤ c.toNat ∧ c.toNat ≤ 102 then some (c.toNat - 87)
  else if 65 ≤ c.toNat ∧ c.toNat ≤ 70 then some (c.toNat - 55)
  else none

/-- The two hexadecimal digits of each byte, in order. -/
def hexText : List (Fin 256) → List Char
  | [] => []
  | b :: rest => hexDigit (b.val / 16) :: hexDigit (b.val % 16) :: hexText rest

/-- The bytes that pairs of hexadecimal digits denote; `none` when a character
is not a hexadecimal digit or one is left over. -/
def hexBytes : List Char → Option (List (Fin 256))
  | [] => some []
  | [_] => none
  | h :: l :: rest =>
    match hexValue h, hexValue l, hexBytes rest with
    | some hv, some lv, some bytes => some (Fin.ofNat (16 * hv + lv) :: bytes)
    | _, _, _ => none

namespace Guid

/-- Modelled from the spec: the constructor `Guid()` (Guid.cpp is absent)
yields the null GUID, the one `isNull` accepts. -/
def null : Guid :=
  { uuid := List.replicate 16 0, size := rfl }

/-- Modelled from the spec: the copy constructor and `operator=( const Guid& )`
(Guid.cpp is absent) copy the source's `uuid`. -/
def copy (source : Guid) : Guid :=
  { uuid := source.uuid, size := source.size }

/-- Modelled from the spec: `Guid::toBytes` (Guid.cpp is absent) returns "a
byte array with the GUID byte value, size = 16". -/
def toBytes (g : Guid) : List (Fin 256) :=
  g.uuid

/-- Modelled from the spec: the cast `operator const unsigned char*`
(Guid.cpp is absent) returns the "byte array with the GUID byte value
representation". -/
def bytesCast (g : Guid) : List (Fin 256) :=
  g.uuid

/-- Modelled from the spec: `Guid::fromBytes` (Guid.cpp is absent)
"initializes this GUID with the GUID specified in the bytes parameter", the
first 16 bytes of the array, and throws an `IllegalArgumentException` for a
`NULL` pointer (here `none`).  An array of fewer than 16 bytes is outside the
contract; it is shown as an exception of unknown class. -/
def fromBytes (g : Guid) (bytes : Option (List (Fin 256))) : Outcome Guid Unit :=
  match bytes with
  | none => (Except.error ⟨ExceptionKind.IllegalArgumentException, "NULL bytes"⟩, g)
  | some array =>
    if h : 16 ≤ array.length then
      (Except.ok (), { uuid := array.take 16, size := by simp [List.length_take, h] })
    else
      (Except.error ⟨ExceptionKind.Unknown, "short byte array"⟩, g)

/-- Modelled from the spec: `Guid::toString` (Guid.cpp is absent) "converts the
GUID to a string": the 16 bytes as 32 lower-case hexadecimal digits in groups
of 8, 4, 4, 4 and 12 joined by dashes, the form of the strings in GuidTest. -/
def toString (g : Guid) : String :=
  String.mk (hexText (g.uuid.take 4) ++ '-' :: hexText ((g.uuid.drop 4).take 2)
    ++ '-' :: hexText ((g.uuid.drop 6).take 2) ++ '-' :: hexText ((g.uuid.drop 8).take 2)
    ++ '-' :: hexText (g.uuid.drop 10))

/-- Modelled from the spec: the cast `operator std::string` (Guid.cpp is
absent) returns the "string representation of this GUID". -/
def stringCast (g : Guid) : String :=
  g.toString

/-- The bytes a GUID string denotes: 36 characters, dashes at the positions 8,
13, 18 and 23, hexadecimal digits elsewhere. -/
def parseBytes (source : List Char) : Option (List (Fin 256)) :=
  if source.length = 36 ∧ source.get? 8 = some '-' ∧ source.get? 13 = some '-'
      ∧ source.get? 18 = some '-' ∧ source.get? 23 = some '-' then
    hexBytes (source.take 8 ++ (source.drop 9).take 4 ++ (source.drop 14).take 4
      ++ (source.drop 19).take 4 ++ (source.drop 24).take 12)
  else
    none

/-- Modelled from the spec: the constructor `Guid( const std::string& )`
(Guid.cpp is absent) reads the GUID a string denotes and throws an
`IllegalArgumentException` for a string that denotes none. -/
def ofString (source : String) : Except Exception Guid :=
  match parseBytes source.toList with
  | some bytes =>
    if hsize : bytes.length = 16 then Except.ok { uuid := bytes, size := hsize }
    else Except.error ⟨ExceptionKind.IllegalArgumentException, "invalid GUID string"⟩
  | none => Except.error ⟨ExceptionKind.IllegalArgumentException, "invalid GUID string"⟩

/-- Modelled from the spec: `operator==( const Guid& )` (Guid.cpp is absent),
"true for equal". -/
def eq (g source : Guid) : Bool :=
  compareBytes g.uuid source.uuid == 0

/-- Modelled from the spec: `operator!=( const Guid& )` (Guid.cpp is absent). -/
def ne (g source : Guid) : Bool :=
  compareBytes g.uuid source.uuid != 0

/-- Modelled from the spec: `operator<( const Guid& )` (Guid.cpp is absent). -/
def lt (g source : Guid) : Bool :=
  decide (compareBytes g.uuid source.uuid < 0)

/-- Modelled from the spec: `operator<=( const Guid& )` (Guid.cpp is absent). -/
def le (g source : Guid) : Bool :=
  decide (compareBytes g.uuid source.uuid ≤ 0)

/-- Modelled from the spec: `operator>( const Guid& )` (Guid.cpp is absent). -/
def gt (g source : Guid) : Bool :=
  decide (compareBytes g.uuid source.uuid > 0)

/-- Modelled from the spec: `operator>=( const Guid& )` (Guid.cpp is absent). -/
def ge (g source : Guid) : Bool :=
  decide (compareBytes g.uuid source.uuid ≥ 0)

end Guid

/-! ## The bytes-message marshaller -/

/-- A `decaf::io::IOException`: its message and, when it was built from an
`ActiveMQException`, that exception. -/
structure IOException where
  message : String
  source : Option Exception
  deriving DecidableEq, Repr

/-- What a statement inside a marshaller operation can throw: an
`IOException`, an `ActiveMQException`, or something else. -/
inductive Raised where
  | io (e : IOException)
  | amq (e : Exception)
  | other
  deriving DecidableEq, Repr

/-- What a call in the marshaller leaves behind: the value it returned or what
it threw, and the state after it. -/
abbrev Attempt (σ α : Type) := Except Raised α × σ

/-- Sequencing in a `try` block: the rest runs on the value and the state the
first statement left, unless it threw. -/
def Attempt.next {σ α β : Type} (r : Attempt σ α) (k : α → σ → Attempt σ β) : Attempt σ β :=
  match r.1 with
  | Except.ok a => k a r.2
  | Except.error e => (Except.error e, r.2)

/-- Modelled from the spec: the handlers that end each operation,
`AMQ_CATCH_RETHROW( decaf::io::IOException )`,
`AMQ_CATCH_EXCEPTION_CONVERT( exceptions::ActiveMQException, decaf::io::IOException )`
and `AMQ_CATCHALL_THROW( decaf::io::IOException )` (the macros are absent from
the sources): an `IOException` is thrown on, an `ActiveMQException` is thrown
as an `IOException` built from it, anything else as a new `IOException`. -/
def catchAsIOException {σ α : Type} (r : Attempt σ α) : Attempt σ α :=
  match r.1 with
  | Except.ok _ => r
  | Except.error (Raised.io e) => (Except.error (Raised.io e), r.2)
  | Except.error (Raised.amq e) =>
    (Except.error (Raised.io { message := e.message, source := some e }), r.2)
  | Except.error Raised.other =>
    (Except.error (Raised.io { message := "caught unknown exception", source := none }), r.2)

/-- Modelled from the spec: the `IOException` under which the handlers let a
failure surface (the macros are absent from the sources): an `IOException`
itself, an `ActiveMQException` as an `IOException` that carries it, anything
else as a new `IOException`. -/
def Raised.toIOException : Raised → IOException
  | Raised.io e => e
  | Raised.amq e => { message := e.message, source := some e }
  | Raised.other => { message := "caught unknown exception", source := none }

/-- What the operations work on: the message `dataStructure` points to, the
boolean stream, the bytes still to be read from `dataIn` and the bytes written
to `dataOut` so far. -/
structure MarshalState (Message : Type) where
  info : Message
  bs : List Bool
  dataIn : List Nat
  dataOut : List Nat

/-- The operations of the base class `MessageMarshaller`, absent from the
sources, at a given wire format. -/
structure MessageMarshaller (Message : Type) where
  tightUnmarshal : MarshalState Message → Attempt (MarshalState Message) Unit
  tightMarshal1 : MarshalState Message → Attempt (MarshalState Message) Int
  tightMarshal2 : MarshalState Message → Attempt (MarshalState Message) Unit
  looseUnmarshal : MarshalState Message → Attempt (MarshalState Message) Unit
  looseMarshal : MarshalState Message → Attempt (MarshalState Message) Unit

/-- The hooks of `ActiveMQBytesMessage`, absent from the sources, at a given
wire format; each works on the message alone. -/
structure MessageHooks (Message : Type) where
  beforeMarshal : Message → Attempt Message Unit
  afterMarshal : Message → Attempt Message Unit
  beforeUnmarshal : Message → Attempt Message Unit
  afterUnmarshal : Message → Attempt Message Unit

/-- A call `info->hook( wireFormat )`: the hook runs on the message of the
state. -/
def onInfo {Message : Type} (hook : Message → Attempt Message Unit)
    (s : MarshalState Message) : Attempt (MarshalState Message) Unit :=
  ((hook s.info).1, { s with info := (hook s.info).2 })

namespace ActiveMQBytesMessageMarshaller

/-- `ActiveMQBytesMessageMarshaller::tightUnmarshal`. -/
def tightUnmarshal {Message : Type} (base : MessageMarshaller Message) (hooks : MessageHooks Message)
    (s : MarshalState Message) : Attempt (MarshalState Message) Unit :=
  catchAsIOException
    ((base.tightUnmarshal s).next fun _ s1 =>
      (onInfo hooks.beforeUnmarshal s1).next fun _ s2 =>
        onInfo hooks.afterUnmarshal s2)

/-- `ActiveMQBytesMessageMarshaller::tightMarshal1`. -/
def tightMarshal1 {Message : Type} (base : MessageMarshaller Message) (hooks : MessageHooks Message)
    (s : MarshalState Message) : Attempt (MarshalState Message) Int :=
  catchAsIOException
    ((onInfo hooks.beforeMarshal s).next fun _ s1 =>
      (base.tightMarshal1 s1).next fun rc s2 =>
        (Except.ok (rc + 0), s2))

/-- `ActiveMQBytesMessageMarshaller::tightMarshal2`. -/
def tightMarshal2 {Message : Type} (base : MessageMarshaller Message) (hooks : MessageHooks Message)
    (s : MarshalState Message) : Attempt (MarshalState Message) Unit :=
  catchAsIOException
    ((base.tightMarshal2 s).next fun _ s1 =>
      onInfo hooks.afterMarshal s1)

/-- `ActiveMQBytesMessageMarshaller::looseUnmarshal`. -/
def looseUnmarshal {Message : Type} (base : MessageMarshaller Message) (hooks : MessageHooks Message)
    (s : MarshalState Message) : Attempt (MarshalState Message) Unit :=
  catchAsIOException
    ((base.looseUnmarshal s).next fun _ s1 =>
      (onInfo hooks.beforeUnmarshal s1).next fun _ s2 =>
        onInfo hooks.afterUnmarshal s2)

/-- `ActiveMQBytesMessageMarshaller::looseMarshal`. -/
def looseMarshal {Message : Type} (base : MessageMarshaller Message) (hooks : MessageHooks Message)
    (s : MarshalState Message) : Attempt (MarshalState Message) Unit :=
  catchAsIOException
    ((onInfo hooks.beforeMarshal s).next fun _ s1 =>
      (base.looseMarshal s1).next fun _ s2 =>
        onInfo hooks.afterMarshal s2)

end ActiveMQBytesMessageMarshaller

/-- Whether a call returned or threw an `IOException`. -/
def Attempt.surfacesAsIOException {σ α : Type} (r : Attempt σ α) : Bool :=
  match r.1 with
  | Except.ok _ => true
  | Except.error (Raised.io _) => true
  | Except.error _ => false

/-! ## Counting workers -/

/-- Whether an event is the start of a polling thread. -/
def Event.isStartThread : Event → Bool
  | Event.startThread _ => true
  | _ => false

/-- The number of polling threads a log shows to have been created and
started. -/
def workersStarted (log : List Event) : Nat :=
  log.countP Event.isStartThread

/-- The commands a log shows to have been passed to `writeCommand`, in
order. -/
def commandsWritten (log : List Event) : List Command :=
  log.filterMap (fun ev =>
    match ev with
    | Event.writeCommand c => some c
    | _ => none)

/-! ## Sample objects -/

/-- A stream whose `close()` returns. -/
def goodStream (id : Nat) : Stream :=
  { id := id, closeThrows := none }

/-- A thread whose `start()` and `join()` return. -/
def goodThread : Thread :=
  { startThrows := none, joinThrows := none }

/-- A transport that has its streams, reader and writer set and has not been
started. -/
def wiredTransport : IOTransport :=
  { IOTransport.new with
    listener := some 1
    exceptionListener := some 2
    reader := some { id := 3 }
    writer := some { writeThrows := fun _ => none }
    inputStream := some (goodStream 4)
    outputStream := some (goodStream 5) }

/-- The transport `wiredTransport` after `start()`. -/
def startedTransport : IOTransport :=
  (IOTransport.start goodThread wiredTransport).2

/-- The started sample transport after its writer has been reset to `NULL`. -/
def writerlessTransport : IOTransport :=
  { startedTransport with writer := none }

/-- A keep-alive command. -/
def sampleCommand : Command :=
  { typeTag := 10, correlationId := none, responseRequired := false, payload := [] }

/-- A supervisor holding a live transport. -/
def connectedSupervisor : FailoverTransport :=
  { connectedTransport := some 1, backups := [], buffer := [], attempts := 0, closed := false }

/-- A supervisor that has lost its transport. -/
def disconnectedSupervisor : FailoverTransport :=
  { connectedTransport := none, backups := [], buffer := [], attempts := 0, closed := false }

/-- A `doReconnect` that connects to transport 7 and reports that no further
pass is needed. -/
def sampleDoReconnect (p : FailoverTransport) : Bool × FailoverTransport :=
  (false, { p with connectedTransport := some 7 })

/-- A `buildBackups` that adds one backup when the pool is empty. -/
def sampleBuildBackups (p : FailoverTransport) : FailoverTransport :=
  if p.backups.isEmpty then { p with backups := [8] } else p

/-- A message received from the broker: a MESSAGE frame with two reserved
headers, one user property and a five-byte body. -/
def sampleMessage : StompMessage :=
  { frame :=
      { command := "MESSAGE"
        properties := ⟨[("destination", "/queue/Q"), ("message-id", "m-1"), ("colour", "red")]⟩
        body := [104, 101, 108, 108, 111] }
    ackHandler := none
    dest := some "/queue/Q"
    replyTo := none }

/-- The GUID of the string `0f2bd21c-9fee-4067-d739-c4d84a5d7f62` used in
GuidTest. -/
def testGuid : Guid :=
  { uuid := [0x0f, 0x2b, 0xd2, 0x1c, 0x9f, 0xee, 0x40, 0x67, 0xd7, 0x39, 0xc4, 0xd8, 0x4a, 0x5d,
      0x7f, 0x62],
    size := rfl }

/-- A message to send that expires at time 1000. -/
def expiringMessage : StompMessage :=
  { frame :=
      { command := "SEND"
        properties := ⟨[("destination", "/queue/Q"), ("expires", "1000")]⟩
        body := [] }
    ackHandler := none
    dest := some "/queue/Q"
    replyTo := none }

/-- A `parseLong` that reads a decimal `long long` and yields 0 for any other
text. -/
def sampleParseLong (text : String) : Int :=
  (extractInteger (-9223372036854775808) 9223372036854775807 text).getD 0

/-- A base marshaller for messages that are their body bytes: pass 1 counts
one tag byte and the body and adds one bit, pass 2 and the loose pass write the
tag byte and the body; unmarshalling does nothing. -/
def sampleMarshaller : MessageMarshaller (List Nat) :=
  { tightUnmarshal := fun s => (Except.ok (), s)
    tightMarshal1 := fun s =>
      (Except.ok ((s.info.length : Int) + 1), { s with bs := s.bs ++ [!s.info.isEmpty] })
    tightMarshal2 := fun s => (Except.ok (), { s with dataOut := s.dataOut ++ 24 :: s.info })
    looseUnmarshal := fun s => (Except.ok (), s)
    looseMarshal := fun s => (Except.ok (), { s with dataOut := s.dataOut ++ 24 :: s.info }) }

/-- Hooks that return and leave the message as it is. -/
def sampleHooks : MessageHooks (List Nat) :=
  { beforeMarshal := fun info => (Except.ok (), info)
    afterMarshal := fun info => (Except.ok (), info)
    beforeUnmarshal := fun info => (Except.ok (), info)
    afterUnmarshal := fun info => (Except.ok (), info) }

/-- A bytes message of five bytes about to be marshalled after two bytes
already written. -/
def sampleMarshalState : MarshalState (List Nat) :=
  { info := [104, 101, 108, 108, 111], bs := [], dataIn := [], dataOut := [0, 0] }

/-! ## Lemmas on `close` and on closed transports -/

theorem rethrow_state (r : Outcome IOTransport Unit) :
    (IOTransport.rethrowAsActiveMQException r).2 = r.2 := by
  unfold IOTransport.rethrowAsActiveMQException
  split
  · rfl
  · split <;> rfl

theorem andThen_closed (r : Outcome IOTransport Unit) (k : IOTransport → Outcome IOTransport Unit)
    (hk : ∀ s, (k s).2.closed = s.closed) : (andThen r k).2.closed = r.2.closed := by
  unfold andThen
  split
  · exact hk r.2
  · rfl

theorem closeInput_closed (t : IOTransport) : t.closeInput.2.closed = t.closed := by
  unfold IOTransport.closeInput
  split
  · rfl
  · split <;> rfl

theorem joinWorker_closed (t : IOTransport) : t.joinWorker.2.closed = t.closed := by
  unfold IOTransport.joinWorker
  split
  · rfl
  · split <;> rfl

theorem closeOutput_closed (t : IOTransport) : t.closeOutput.2.closed = t.closed := by
  unfold IOTransport.closeOutput
  split
  · rfl
  · split <;> rfl

theorem close_of_closed (t : IOTransport) (h : t.closed = true) :
    t.close = (Except.ok (), t) := by
  simp [IOTransport.close, IOTransport.rethrowAsActiveMQException, h]

theorem closed_after_close (t : IOTransport) : t.close.2.closed = true := by
  by_cases h : t.closed = true
  · rw [close_of_closed t h]; exact h
  · unfold IOTransport.close
    rw [rethrow_state, if_neg h, andThen_closed _ _ closeOutput_closed,
      andThen_closed _ _ joinWorker_closed, andThen_closed _ _ closeInput_closed]
    rfl

theorem stateAfter_of_closed (c : Call) (t : IOTransport) (h : t.closed = true) :
    c.stateAfter t = t := by
  cases c with
  | oneway command => simp [Call.stateAfter, IOTransport.oneway, h]
  | start newThread => simp [Call.stateAfter, IOTransport.start, h]
  | close => simp [Call.stateAfter, close_of_closed t h]
  | request command => rfl

theorem stateAfterCalls_of_closed (calls : List Call) (t : IOTransport) (h : t.closed = true) :
    stateAfterCalls calls t = t := by
  induction calls with
  | nil => rfl
  | cons c rest ih =>
    simp only [stateAfterCalls, List.foldl_cons] at ih ⊢
    rw [stateAfter_of_closed c t h]
    exact ih

theorem closeTimes_of_closed (n : Nat) (t : IOTransport) (h : t.closed = true) :
    IOTransport.closeTimes n t = t := by
  induction n with
  | zero => rfl
  | succ n ih =>
    simp only [IOTransport.closeTimes]
    rw [close_of_closed t h]
    exact ih

/-! ## Lemmas on the worker -/

/-- C1. For every reserved STOMP header name and every value, each of the eight
property setters of `StompMessage` throws an `IllegalArgumentException` and
leaves the message (its frame with verb, headers and body, and its other
members) as it was. -/
theorem setters_reject_reserved_name {Single Double : Type}
    (insertFloat : Single → String) (insertDouble : Double → String)
    (m : StompMessage) (name : String)
    (h : CommandConstants.isStompHeader name = true)
    (text : String) (flag : Bool) (byte : Nat) (short int long : Int)
    (single : Single) (double : Double) :
    StompMessage.reservedNameError.kind = ExceptionKind.IllegalArgumentException
    ∧ m.setStringProperty name text = (Except.error StompMessage.reservedNameError, m)
    ∧ m.setBooleanProperty name flag = (Except.error StompMessage.reservedNameError, m)
    ∧ m.setByteProperty name byte = (Except.error StompMessage.reservedNameError, m)
    ∧ m.setShortProperty name short = (Except.error StompMessage.reservedNameError, m)
    ∧ m.setIntProperty name int = (Except.error StompMessage.reservedNameError, m)
    ∧ m.setLongProperty name long = (Except.error StompMessage.reservedNameError, m)
    ∧ StompMessage.setFloatProperty insertFloat m name single
        = (Except.error StompMessage.reservedNameError, m)
    ∧ StompMessage.setDoubleProperty insertDouble m name double
        = (Except.error StompMessage.reservedNameError, m) := by
  simp [StompMessage.setStringProperty, StompMessage.setBooleanProperty,
    StompMessage.setByteProperty, StompMessage.setShortProperty, StompMessage.setIntProperty,
    StompMessage.setLongProperty, StompMessage.setFloatProperty, StompMessage.setDoubleProperty,
    StompMessage.setStrictPropertyValue, StompMessage.testProperty,
    StompMessage.reservedNameError, h]

/-- Witness of C1: the setters called with the name `destination` on a received
message. -/
theorem setters_reject_reserved_name_witness :
    CommandConstants.isStompHeader "destination" = true
    ∧ sampleMessage.setStringProperty "destination" "/queue/X"
        = (Except.error StompMessage.reservedNameError, sampleMessage)
    ∧ sampleMessage.setIntProperty "destination" (-3)
        = (Except.error StompMessage.reservedNameError, sampleMessage)
    ∧ StompMessage.setDoubleProperty (fun x : Float => toString x) sampleMessage
        "destination" 1.5 = (Except.error StompMessage.reservedNameError, sampleMessage) :=
  have h := setters_reject_reserved_name (fun x : Float => toString x)
    (fun x : Float => toString x) sampleMessage "destination" (by decide)
    "/queue/X" true 65 (-3) (-3) (-3) 1.5 1.5
  ⟨by decide, h.2.1, h.2.2.2.2.2.1, h.2.2.2.2.2.2.2.2⟩

/-- Counterexample to C2: on a transport that was started and then closed,
`request` throws an `UnsupportedOperationException`, not the I/O error
`CommandIOException`. -/
theorem request_after_close_not_io_error :
    (IOTransport.close startedTransport).2.closed = true
    ∧ thrownKind (IOTransport.request (IOTransport.close startedTransport).2
        (some sampleCommand)) = some ExceptionKind.UnsupportedOperationException
    ∧ thrownKind (IOTransport.request (IOTransport.close startedTransport).2
        (some sampleCommand)) ≠ some ExceptionKind.CommandIOException := by
  refine ⟨rfl, rfl, ?_⟩
  decide

/-- C2, amended. After `close` has been called, whatever calls follow, every
`oneway` throws a `CommandIOException` and every `request` throws an
`UnsupportedOperationException`; either leaves the transport and its log as
they were: nothing is written, no lock is taken, no thread is joined. -/
theorem calls_after_close_fail (t : IOTransport) (calls : List Call)
    (command : Option Command) :
    IOTransport.oneway (stateAfterCalls calls t.close.2) command
      = (Except.error ⟨ExceptionKind.CommandIOException,
          "IOTransport::oneway() - transport is closed!"⟩, stateAfterCalls calls t.close.2)
    ∧ IOTransport.request (stateAfterCalls calls t.close.2) command
      = (Except.error ⟨ExceptionKind.UnsupportedOperationException,
          "IOTransport::request() - unsupported operation"⟩, stateAfterCalls calls t.close.2)
    ∧ stateAfterCalls calls t.close.2 = t.close.2 := by
  have h := stateAfterCalls_of_closed calls t.close.2 (closed_after_close t)
  rw [h]
  refine ⟨?_, rfl, rfl⟩
  simp [IOTransport.oneway, closed_after_close t]

/-- C3. In every state of the transport and for every command, `request`
throws an `UnsupportedOperationException` and leaves the transport as it was,
its log included: nothing is written. -/
theorem request_unsupported (t : IOTransport) (command : Option Command) :
    thrownKind (t.request command) = some ExceptionKind.UnsupportedOperationException
    ∧ (t.request command).2 = t
    ∧ (t.request command).2.log = t.log := by
  exact ⟨rfl, rfl, rfl⟩

/-- C4. `close` is idempotent: in every state, a second `close` returns without
changing anything (flag, streams, thread, log), and any number of calls, one at
least, leaves what one call leaves. -/
theorem close_idempotent (t : IOTransport) (n : Nat) :
    IOTransport.close t.close.2 = (Except.ok (), t.close.2)
    ∧ IOTransport.closeTimes (n + 1) t = t.close.2 := by
  refine ⟨close_of_closed _ (closed_after_close t), ?_⟩
  simp only [IOTransport.closeTimes]
  exact closeTimes_of_closed n _ (closed_after_close t)

/-- C8. The commands the worker hands to the command listener are, in order and
each once, the commands read in the passes that come before the first pass
whose loop test sees the closed flag or whose read throws; and every read the
worker makes ends in one command handed on, in one exception passed to `fire`,
or in the termination of the program. -/
theorem run_delivers_commands_read (passes : List Pass) :
    (IOTransport.run passes).delivered
      = (passes.takeWhile (fun p => p.yields.isSome)).filterMap Pass.yields
    ∧ (IOTransport.run passes).reads
      = (IOTransport.run passes).delivered.length + (IOTransport.run passes).reported.length
        + (if (IOTransport.run passes).terminated then 1 else 0) := by
  induction passes with
  | nil => exact ⟨rfl, rfl⟩
  | cons p rest ih =>
    obtain ⟨closed, read⟩ := p
    cases closed with
    | true => exact ⟨rfl, rfl⟩
    | false =>
      cases read with
      | throws e =>
        by_cases hkind : e.kind = ExceptionKind.CommandIOException
        · simp [IOTransport.run, hkind, WorkerResult.delivered, WorkerResult.reported,
            WorkerResult.reads, Pass.yields]
        · simp [IOTransport.run, hkind, WorkerResult.delivered, WorkerResult.reported,
            WorkerResult.reads, Pass.yields]
      | command c =>
        obtain ⟨ih1, ih2⟩ := ih
        simp only [WorkerResult.delivered, WorkerResult.reported, WorkerResult.reads] at ih1 ih2 ⊢
        constructor
        · simp [IOTransport.run, Pass.yields, List.takeWhile_cons, ih1]
        · simp [IOTransport.run, ih2]
          omega

/-- C9. In one cycle `iterate` calls `doReconnect` once when the parent has no
connected transport and is not closed, and not at all otherwise; in a cycle
that calls `doReconnect` it does not call `buildBackups`, and the parent it
leaves is the one `doReconnect` left. -/
theorem iterate_reconnects_iff_disconnected
    (doReconnect : FailoverTransport → Bool × FailoverTransport)
    (buildBackups : FailoverTransport → FailoverTransport) (parent : FailoverTransport) :
    (ReconnectTask.iterate doReconnect buildBackups parent).events.count TaskEvent.doReconnect
      = (if parent.connectedTransport = none ∧ parent.closed = false then 1 else 0)
    ∧ (ReconnectTask.iterate doReconnect buildBackups parent).events.count TaskEvent.buildBackups
      = (if parent.connectedTransport = none ∧ parent.closed = false then 0 else 1)
    ∧ (ReconnectTask.iterate doReconnect buildBackups parent).parent
      = (if parent.connectedTransport = none ∧ parent.closed = false then (doReconnect parent).2
         else buildBackups parent) := by
  obtain ⟨ct, bk, buf, att, cl⟩ := parent
  cases ct <;> cases cl <;> simp [ReconnectTask.iterate]

/-- Counterexample to C10: on a supervisor that holds a connected transport,
`iterate` calls `buildBackups` but returns false and does not wake the task
runner. -/
theorem iterate_connected_returns_false :
    connectedSupervisor.connectedTransport.isSome = true
    ∧ (ReconnectTask.iterate sampleDoReconnect sampleBuildBackups connectedSupervisor).result
        = false
    ∧ TaskEvent.wakeup ∉
        (ReconnectTask.iterate sampleDoReconnect sampleBuildBackups connectedSupervisor).events
    ∧ TaskEvent.buildBackups ∈
        (ReconnectTask.iterate sampleDoReconnect sampleBuildBackups connectedSupervisor).events := by
  decide

/-- C10, amended. In one cycle, if the parent has a connected transport or is
closed, `iterate` takes and releases the backup mutex, calls `buildBackups`,
does not wake the task runner and returns false. -/
theorem iterate_builds_backups_when_connected
    (doReconnect : FailoverTransport → Bool × FailoverTransport)
    (buildBackups : FailoverTransport → FailoverTransport) (parent : FailoverTransport)
    (h : parent.connectedTransport.isSome = true ∨ parent.closed = true) :
    ReconnectTask.iterate doReconnect buildBackups parent
      = { result := false, parent := buildBackups parent,
          events := [TaskEvent.lockBackupMutex, TaskEvent.unlockBackupMutex,
            TaskEvent.buildBackups] } := by
  obtain ⟨ct, bk, buf, att, cl⟩ := parent
  cases ct <;> cases cl <;> simp_all [ReconnectTask.iterate]

/-- Witness of C10, amended: one cycle on a supervisor holding a connected
transport. -/
theorem iterate_builds_backups_when_connected_witness :
    (connectedSupervisor.connectedTransport.isSome = true ∨ connectedSupervisor.closed = true)
    ∧ ReconnectTask.iterate sampleDoReconnect sampleBuildBackups connectedSupervisor
      = { result := false, parent := sampleBuildBackups connectedSupervisor,
          events := [TaskEvent.lockBackupMutex, TaskEvent.unlockBackupMutex,
            TaskEvent.buildBackups] } :=
  ⟨Or.inl rfl, iterate_builds_backups_when_connected sampleDoReconnect sampleBuildBackups
    connectedSupervisor (Or.inl rfl)⟩

/-! ## Lemmas on the properties of a message -/

theorem getPropertyNamesLoop_eq (array : List (String × String)) (names : List String) :
    StompMessage.getPropertyNamesLoop array names
      = names ++ (array.map Prod.fst).filter (fun n => !CommandConstants.isStompHeader n) := by
  induction array generalizing names with
  | nil => simp [StompMessage.getPropertyNamesLoop]
  | cons e rest ih =>
    by_cases h : CommandConstants.isStompHeader e.1 = true
    · simp [StompMessage.getPropertyNamesLoop, h, ih]
    · simp [StompMessage.getPropertyNamesLoop, h, ih]

theorem hasProperty_iff_mem (p : Properties) (name : String) :
    p.hasProperty name = true ↔ name ∈ p.entries.map Prod.fst := by
  simp [Properties.hasProperty]

theorem clearPropertiesLoop_entries (array : List (String × String)) (props : Properties) :
    (StompMessage.clearPropertiesLoop array props).entries
      = props.entries.filter (fun e =>
          !(array.any (fun a => !CommandConstants.isStompHeader a.1 && a.1 == e.1))) := by
  induction array generalizing props with
  | nil => simp [StompMessage.clearPropertiesLoop]
  | cons a rest ih =>
    by_cases h : CommandConstants.isStompHeader a.1 = true
    · simp [StompMessage.clearPropertiesLoop, h, ih]
    · simp only [Bool.not_eq_true] at h
      simp only [StompMessage.clearPropertiesLoop, h, Bool.not_false, if_true, ih,
        Properties.remove, List.filter_filter, List.any_cons, Bool.true_and]
      apply List.filter_congr
      intro e _
      by_cases hae : a.1 = e.1
      · simp [hae]
      · have hea : ¬ e.1 = a.1 := fun h' => hae h'.symm
        have h1 : (a.1 == e.1) = false := by simpa using hae
        have h2 : (e.1 != a.1) = true := by simpa using hea
        simp [h1, h2]

theorem clearProperties_entries (m : StompMessage) :
    m.clearProperties.frame.properties.entries
      = m.frame.properties.entries.filter (fun e => CommandConstants.isStompHeader e.1) := by
  simp only [StompMessage.clearProperties, Properties.toArray, clearPropertiesLoop_entries]
  apply List.filter_congr
  intro e he
  by_cases h : CommandConstants.isStompHeader e.1 = true
  · rw [h]
    simp only [Bool.not_eq_true', List.any_eq_false, Bool.and_eq_true, Bool.not_eq_true',
      beq_iff_eq, not_and]
    intro a _ ha hae
    rw [hae, h] at ha
    exact absurd ha (by simp)
  · simp only [Bool.not_eq_true] at h
    rw [h]
    simp only [Bool.not_eq_false', List.any_eq_true, Bool.and_eq_true, Bool.not_eq_true',
      beq_iff_eq]
    exact ⟨e, he, h, rfl⟩

theorem find_reserved_filter (entries : List (String × String)) (name : String)
    (h : CommandConstants.isStompHeader name = true) :
    (entries.filter (fun e => CommandConstants.isStompHeader e.1)).find? (fun e => e.1 == name)
      = entries.find? (fun e => e.1 == name) := by
  induction entries with
  | nil => rfl
  | cons e rest ih =>
    by_cases hn : e.1 = name
    · have he : CommandConstants.isStompHeader e.1 = true := by rw [hn]; exact h
      simp [List.filter_cons, he, hn, h]
    · by_cases he : CommandConstants.isStompHeader e.1 = true
      · simp [List.filter_cons, he, hn, ih]
      · simp [List.filter_cons, he, hn, ih]

/-- C11. `getPropertyNames` returns the names of the frame's headers that are
not reserved, in the frame's order and each as often as the frame lists it,
so each once when the frame lists no name twice; no reserved name is among
them. -/
theorem getPropertyNames_lists_user_headers (m : StompMessage) (name : String) :
    m.getPropertyNames
      = (m.frame.properties.toArray.map Prod.fst).filter
          (fun n => !CommandConstants.isStompHeader n)
    ∧ m.getPropertyNames.count name
      = (if CommandConstants.isStompHeader name then 0
         else (m.frame.properties.toArray.map Prod.fst).count name)
    ∧ (CommandConstants.isStompHeader name && m.getPropertyNames.contains name) = false
    ∧ ((m.frame.properties.toArray.map Prod.fst).Nodup → m.getPropertyNames.Nodup) := by
  have hnames := getPropertyNamesLoop_eq m.frame.properties.toArray []
  simp only [List.nil_append] at hnames
  refine ⟨hnames, ?_, ?_, ?_⟩
  rotate_left 2
  · intro hnodup
    unfold StompMessage.getPropertyNames
    rw [hnames]
    exact hnodup.filter _
  · unfold StompMessage.getPropertyNames
    rw [hnames]
    by_cases h : CommandConstants.isStompHeader name = true
    · rw [if_pos h]
      apply List.count_eq_zero_of_not_mem
      simp [List.mem_filter, h]
    · rw [if_neg h]
      simp only [Bool.not_eq_true] at h
      exact List.count_filter (by simp [h])
  · unfold StompMessage.getPropertyNames
    rw [hnames]
    by_cases h : CommandConstants.isStompHeader name = true
    · simp [List.mem_filter, h]
    · simp [h]

/-- C12. `propertyExists( name )` holds exactly when the name is among
`getPropertyNames()`; for a reserved name it does not hold, whatever the frame
carries. -/
theorem propertyExists_iff_mem_getPropertyNames (m : StompMessage) (name : String) :
    (m.propertyExists name = true ↔ name ∈ m.getPropertyNames)
    ∧ (CommandConstants.isStompHeader name && m.propertyExists name) = false := by
  have hnames := getPropertyNamesLoop_eq m.frame.properties.toArray []
  simp only [List.nil_append] at hnames
  unfold StompMessage.getPropertyNames
  rw [hnames]
  by_cases h : CommandConstants.isStompHeader name = true
  · simp [StompMessage.propertyExists, h, List.mem_filter]
  · simp only [Bool.not_eq_true] at h
    simp only [StompMessage.propertyExists, h, Bool.false_and, and_true, List.mem_filter,
      Bool.not_false, Properties.toArray]
    simpa using hasProperty_iff_mem m.frame.properties name

/-- C13. `clearProperties` leaves the reserved headers of the frame, in their
order and with their values, and nothing else of the mapping: afterwards
`getPropertyNames()` is empty and a reserved header reads as before; the verb,
the body and the other members of the message are as before. -/
theorem clearProperties_removes_user_properties (m : StompMessage) (name : String) :
    m.clearProperties.getPropertyNames = []
    ∧ m.clearProperties.frame.properties.entries
        = m.frame.properties.entries.filter (fun e => CommandConstants.isStompHeader e.1)
    ∧ (CommandConstants.isStompHeader name = true →
        m.clearProperties.frame.properties.getProperty name
          = m.frame.properties.getProperty name
        ∧ m.clearProperties.frame.properties.hasProperty name
          = m.frame.properties.hasProperty name)
    ∧ m.clearProperties.frame.command = m.frame.command
    ∧ m.clearProperties.frame.body = m.frame.body
    ∧ m.clearProperties.ackHandler = m.ackHandler
    ∧ m.clearProperties.dest = m.dest
    ∧ m.clearProperties.replyTo = m.replyTo := by
  refine ⟨?_, clearProperties_entries m, ?_, rfl, rfl, rfl, rfl, rfl⟩
  · have hnames := getPropertyNamesLoop_eq m.clearProperties.frame.properties.toArray []
    simp only [List.nil_append] at hnames
    unfold StompMessage.getPropertyNames
    rw [hnames, Properties.toArray, clearProperties_entries, List.filter_eq_nil_iff]
    intro n hn
    simp only [List.mem_map, List.mem_filter] at hn
    obtain ⟨e, ⟨_, he⟩, rfl⟩ := hn
    simp [he]
  · intro h
    constructor
    · simp only [Properties.getProperty, clearProperties_entries, find_reserved_filter _ _ h]
    · apply Bool.eq_iff_iff.mpr
      rw [hasProperty_iff_mem, hasProperty_iff_mem, clearProperties_entries]
      simp only [List.mem_map, List.mem_filter]
      constructor
      · rintro ⟨e, ⟨he, _⟩, rfl⟩
        exact ⟨e, he, rfl⟩
      · rintro ⟨e, he, rfl⟩
        exact ⟨e, ⟨he, h⟩, rfl⟩

theorem getStrictPropertyValue_reserved {TYPE : Type} (extract : String → Option TYPE)
    (m : StompMessage) (name : String) (h : CommandConstants.isStompHeader name = true) :
    StompMessage.getStrictPropertyValue extract m name
      = (Except.error StompMessage.reservedNameError, m) := by
  simp [StompMessage.getStrictPropertyValue, StompMessage.testProperty,
    StompMessage.reservedNameError, h]

theorem getStrictPropertyValue_missing {TYPE : Type} (extract : String → Option TYPE)
    (m : StompMessage) (name : String) (h : CommandConstants.isStompHeader name = false)
    (hp : m.frame.properties.hasProperty name = false) :
    StompMessage.getStrictPropertyValue extract m name
      = (Except.error StompMessage.missingPropertyError, m) := by
  simp [StompMessage.getStrictPropertyValue, StompMessage.testProperty,
    StompMessage.missingPropertyError, h, hp]

theorem getStrictPropertyValue_state {TYPE : Type} (extract : String → Option TYPE)
    (m : StompMessage) (name : String) :
    (StompMessage.getStrictPropertyValue extract m name).2 = m := by
  unfold StompMessage.getStrictPropertyValue
  split
  · rfl
  · split
    · rfl
    · split
      · rfl
      · split <;> rfl

theorem getBooleanProperty_state (m : StompMessage) (name : String) :
    (m.getBooleanProperty name).2 = m := by
  have h := getStrictPropertyValue_state extractString m name
  unfold StompMessage.getBooleanProperty
  split
  · next e m1 heq => rw [heq] at h; exact h
  · next v m1 heq => rw [heq] at h; exact h

/-- C14. Each of the eight property getters throws an
`IllegalArgumentException` for a reserved header name, whether or not the
frame carries that header, throws a `NoSuchElementException` for a name that
is not reserved and that the frame does not carry, and in every case leaves
the message as it was. -/
theorem getters_reject_reserved_and_missing {Single Double : Type}
    (extractFloat : String → Option Single) (extractDouble : String → Option Double)
    (m : StompMessage) (name : String) :
    (CommandConstants.isStompHeader name = true →
      m.getStringProperty name = (Except.error StompMessage.reservedNameError, m)
      ∧ m.getBooleanProperty name = (Except.error StompMessage.reservedNameError, m)
      ∧ m.getByteProperty name = (Except.error StompMessage.reservedNameError, m)
      ∧ m.getShortProperty name = (Except.error StompMessage.reservedNameError, m)
      ∧ m.getIntProperty name = (Except.error StompMessage.reservedNameError, m)
      ∧ m.getLongProperty name = (Except.error StompMessage.reservedNameError, m)
      ∧ StompMessage.getFloatProperty extractFloat m name
          = (Except.error StompMessage.reservedNameError, m)
      ∧ StompMessage.getDoubleProperty extractDouble m name
          = (Except.error StompMessage.reservedNameError, m))
    ∧ (CommandConstants.isStompHeader name = false →
      m.frame.properties.hasProperty name = false →
      m.getStringProperty name = (Except.error StompMessage.missingPropertyError, m)
      ∧ m.getBooleanProperty name = (Except.error StompMessage.missingPropertyError, m)
      ∧ m.getByteProperty name = (Except.error StompMessage.missingPropertyError, m)
      ∧ m.getShortProperty name = (Except.error StompMessage.missingPropertyError, m)
      ∧ m.getIntProperty name = (Except.error StompMessage.missingPropertyError, m)
      ∧ m.getLongProperty name = (Except.error StompMessage.missingPropertyError, m)
      ∧ StompMessage.getFloatProperty extractFloat m name
          = (Except.error StompMessage.missingPropertyError, m)
      ∧ StompMessage.getDoubleProperty extractDouble m name
          = (Except.error StompMessage.missingPropertyError, m))
    ∧ ((m.getStringProperty name).2 = m
      ∧ (m.getBooleanProperty name).2 = m
      ∧ (m.getByteProperty name).2 = m
      ∧ (m.getShortProperty name).2 = m
      ∧ (m.getIntProperty name).2 = m
      ∧ (m.getLongProperty name).2 = m
      ∧ (StompMessage.getFloatProperty extractFloat m name).2 = m
      ∧ (StompMessage.getDoubleProperty extractDouble m name).2 = m)
    ∧ StompMessage.reservedNameError.kind = ExceptionKind.IllegalArgumentException
    ∧ StompMessage.missingPropertyError.kind = ExceptionKind.NoSuchElementException := by
  refine ⟨?_, ?_, ?_, rfl, rfl⟩
  · intro h
    refine ⟨getStrictPropertyValue_reserved _ m name h, ?_,
      getStrictPropertyValue_reserved _ m name h, getStrictPropertyValue_reserved _ m name h,
      getStrictPropertyValue_reserved _ m name h, getStrictPropertyValue_reserved _ m name h,
      getStrictPropertyValue_reserved _ m name h, getStrictPropertyValue_reserved _ m name h⟩
    unfold StompMessage.getBooleanProperty
    rw [getStrictPropertyValue_reserved _ m name h]
  · intro h hp
    refine ⟨getStrictPropertyValue_missing _ m name h hp, ?_,
      getStrictPropertyValue_missing _ m name h hp, getStrictPropertyValue_missing _ m name h hp,
      getStrictPropertyValue_missing _ m name h hp, getStrictPropertyValue_missing _ m name h hp,
      getStrictPropertyValue_missing _ m name h hp, getStrictPropertyValue_missing _ m name h hp⟩
    unfold StompMessage.getBooleanProperty
    rw [getStrictPropertyValue_missing _ m name h hp]
  · exact ⟨getStrictPropertyValue_state _ m name, getBooleanProperty_state m name,
      getStrictPropertyValue_state _ m name, getStrictPropertyValue_state _ m name,
      getStrictPropertyValue_state _ m name, getStrictPropertyValue_state _ m name,
      getStrictPropertyValue_state _ m name, getStrictPropertyValue_state _ m name⟩

/-- C18. `isExpired` holds exactly when the expiration time of the message is
above 0 and the current time is above it; a message whose expiration time is 0
does not expire, and neither does one without an `expires` header, whose
expiration time is what `parseLong` reads from the text `0`. -/
theorem isExpired_iff (parseLong : String → Int) (currentTime : Int) (m : StompMessage) :
    (StompMessage.isExpired parseLong currentTime m = true
      ↔ 0 < StompMessage.getCMSExpiration parseLong m
        ∧ StompMessage.getCMSExpiration parseLong m < currentTime)
    ∧ (StompMessage.getCMSExpiration parseLong m = 0 →
        StompMessage.isExpired parseLong currentTime m = false)
    ∧ (m.frame.properties.hasProperty CommandConstants.HEADER_EXPIRES = false →
        StompMessage.getCMSExpiration parseLong m = parseLong "0")
    ∧ (m.frame.properties.hasProperty CommandConstants.HEADER_EXPIRES = false →
        parseLong "0" = 0 →
        StompMessage.isExpired parseLong currentTime m = false) := by
  have habsent : m.frame.properties.hasProperty CommandConstants.HEADER_EXPIRES = false →
      StompMessage.getCMSExpiration parseLong m = parseLong "0" := by
    intro h
    have hnone : m.frame.properties.getProperty CommandConstants.HEADER_EXPIRES = none := by
      simp only [Properties.hasProperty, List.any_eq_false, beq_iff_eq] at h
      simp only [Properties.getProperty, Option.map_eq_none', List.find?_eq_none, beq_iff_eq]
      exact h
    simp [StompMessage.getCMSExpiration, StompMessage.getPropertyValueOr, hnone]
  have hzero : StompMessage.getCMSExpiration parseLong m = 0 →
      StompMessage.isExpired parseLong currentTime m = false := by
    intro h
    simp [StompMessage.isExpired, h]
  refine ⟨?_, hzero, habsent, ?_⟩
  · simp [StompMessage.isExpired]
  · intro h h0
    exact hzero (by rw [habsent h, h0])

/-- Witness of C18: a message that expires at 1000 is expired at 1001 and not
at 1000; a message without an `expires` header is not expired. -/
theorem isExpired_iff_witness :
    StompMessage.isExpired sampleParseLong 1001 expiringMessage = true
    ∧ StompMessage.isExpired sampleParseLong 1000 expiringMessage = false
    ∧ sampleMessage.frame.properties.hasProperty CommandConstants.HEADER_EXPIRES = false
    ∧ sampleParseLong "0" = 0
    ∧ StompMessage.isExpired sampleParseLong 1001 sampleMessage = false :=
  ⟨(isExpired_iff sampleParseLong 1001 expiringMessage).1.mpr (by decide),
   by decide, by decide, by decide,
   (isExpired_iff sampleParseLong 1001 sampleMessage).2.2.2 (by decide) (by decide)⟩

/-- C20. In one cycle `iterate` wakes the task runner once when it took the
`doReconnect` branch and not at all when it took the `buildBackups` branch;
it takes one of the two branches. -/
theorem iterate_wakes_only_after_reconnect
    (doReconnect : FailoverTransport → Bool × FailoverTransport)
    (buildBackups : FailoverTransport → FailoverTransport) (parent : FailoverTransport) :
    (ReconnectTask.iterate doReconnect buildBackups parent).events.count TaskEvent.wakeup
      = (ReconnectTask.iterate doReconnect buildBackups parent).events.count TaskEvent.doReconnect
    ∧ (ReconnectTask.iterate doReconnect buildBackups parent).events.count TaskEvent.wakeup
      + (ReconnectTask.iterate doReconnect buildBackups parent).events.count TaskEvent.buildBackups
      = 1
    ∧ ((ReconnectTask.iterate doReconnect buildBackups parent).events
        = [TaskEvent.lockBackupMutex, TaskEvent.doReconnect, TaskEvent.unlockBackupMutex,
            TaskEvent.wakeup]
      ∨ (ReconnectTask.iterate doReconnect buildBackups parent).events
        = [TaskEvent.lockBackupMutex, TaskEvent.unlockBackupMutex, TaskEvent.buildBackups]) := by
  obtain ⟨ct, bk, buf, att, cl⟩ := parent
  cases ct <;> cases cl <;> simp [ReconnectTask.iterate]

/-- Witness of C14: on a received message that carries the `destination`
header and has no property `size`, the getters called with either name. -/
theorem getters_reject_reserved_and_missing_witness :
    sampleMessage.frame.properties.hasProperty "destination" = true
    ∧ sampleMessage.getStringProperty "destination"
        = (Except.error StompMessage.reservedNameError, sampleMessage)
    ∧ sampleMessage.getIntProperty "size"
        = (Except.error StompMessage.missingPropertyError, sampleMessage)
    ∧ (sampleMessage.getStringProperty "colour").2 = sampleMessage :=
  have hd := getters_reject_reserved_and_missing (fun _ : String => (none : Option Float))
    (fun _ : String => (none : Option Float)) sampleMessage "destination"
  have hs := getters_reject_reserved_and_missing (fun _ : String => (none : Option Float))
    (fun _ : String => (none : Option Float)) sampleMessage "size"
  have hc := getters_reject_reserved_and_missing (fun _ : String => (none : Option Float))
    (fun _ : String => (none : Option Float)) sampleMessage "colour"
  ⟨by decide, (hd.1 (by decide)).1, (hs.2.1 (by decide) (by decide)).2.2.2.2.1, hc.2.2.1.1⟩

/-! ## Lemmas on Guid -/

theorem compareBytes_self (bytes : List (Fin 256)) : compareBytes bytes bytes = 0 := by
  induction bytes with
  | nil => rfl
  | cons b rest ih => simp [compareBytes, ih]

theorem hexValue_hexDigit (n : Nat) (h : n < 16) : hexValue (hexDigit n) = some n := by
  interval_cases n <;> decide

theorem hexBytes_hexText (bytes : List (Fin 256)) : hexBytes (hexText bytes) = some bytes := by
  induction bytes with
  | nil => rfl
  | cons b rest ih =>
    have hh : b.val / 16 < 16 := by omega
    have hl : b.val % 16 < 16 := by omega
    have hb : (Fin.ofNat (16 * (b.val / 16) + b.val % 16) : Fin 256) = b := by
      apply Fin.ext
      simp only [Fin.ofNat, Fin.val_mk]
      omega
    simp only [hexText, hexBytes, hexValue_hexDigit _ hh, hexValue_hexDigit _ hl, ih, hb]

theorem hexText_length (bytes : List (Fin 256)) : (hexText bytes).length = 2 * bytes.length := by
  induction bytes with
  | nil => rfl
  | cons b rest ih => simp only [hexText, List.length_cons, ih]; omega

theorem hexText_append (front back : List (Fin 256)) :
    hexText (front ++ back) = hexText front ++ hexText back := by
  induction front with
  | nil => rfl
  | cons b rest ih => simp [hexText, ih]

theorem cons_of_length_succ {α : Type} (n : Nat) (l : List α) (h : l.length = n + 1) :
    ∃ b t, l = b :: t ∧ t.length = n := by
  cases l with
  | nil => simp at h
  | cons b t => exact ⟨b, t, rfl, by simpa using h⟩

theorem sixteen_bytes (bytes : List (Fin 256)) (h : bytes.length = 16) :
    ∃ b0 b1 b2 b3 b4 b5 b6 b7 b8 b9 b10 b11 b12 b13 b14 b15 : Fin 256,
      bytes = [b0, b1, b2, b3, b4, b5, b6, b7, b8, b9, b10, b11, b12, b13, b14, b15] := by
  obtain ⟨b0, t0, rfl, h0⟩ := cons_of_length_succ _ _ h
  obtain ⟨b1, t1, rfl, h1⟩ := cons_of_length_succ _ _ h0
  obtain ⟨b2, t2, rfl, h2⟩ := cons_of_length_succ _ _ h1
  obtain ⟨b3, t3, rfl, h3⟩ := cons_of_length_succ _ _ h2
  obtain ⟨b4, t4, rfl, h4⟩ := cons_of_length_succ _ _ h3
  obtain ⟨b5, t5, rfl, h5⟩ := cons_of_length_succ _ _ h4
  obtain ⟨b6, t6, rfl, h6⟩ := cons_of_length_succ _ _ h5
  obtain ⟨b7, t7, rfl, h7⟩ := cons_of_length_succ _ _ h6
  obtain ⟨b8, t8, rfl, h8⟩ := cons_of_length_succ _ _ h7
  obtain ⟨b9, t9, rfl, h9⟩ := cons_of_length_succ _ _ h8
  obtain ⟨b10, t10, rfl, h10⟩ := cons_of_length_succ _ _ h9
  obtain ⟨b11, t11, rfl, h11⟩ := cons_of_length_succ _ _ h10
  obtain ⟨b12, t12, rfl, h12⟩ := cons_of_length_succ _ _ h11
  obtain ⟨b13, t13, rfl, h13⟩ := cons_of_length_succ _ _ h12
  obtain ⟨b14, t14, rfl, h14⟩ := cons_of_length_succ _ _ h13
  obtain ⟨b15, t15, rfl, h15⟩ := cons_of_length_succ _ _ h14
  have hnil : t15 = [] := List.length_eq_zero.mp h15
  subst hnil
  exact ⟨b0, b1, b2, b3, b4, b5, b6, b7, b8, b9, b10, b11, b12, b13, b14, b15, rfl⟩

theorem parseBytes_toString (g : Guid) : Guid.parseBytes g.toString.toList = some g.uuid := by
  obtain ⟨uuid, size⟩ := g
  obtain ⟨b0, b1, b2, b3, b4, b5, b6, b7, b8, b9, b10, b11, b12, b13, b14, b15, rfl⟩ := sixteen_bytes uuid size
  unfold Guid.parseBytes
  rw [if_pos ⟨rfl, rfl, rfl, rfl, rfl⟩]
  exact hexBytes_hexText [b0, b1, b2, b3, b4, b5, b6, b7, b8, b9, b10, b11, b12, b13, b14, b15]

theorem catchAsIOException_surfaces {σ α : Type} (r : Attempt σ α) :
    (catchAsIOException r).surfacesAsIOException = true := by
  obtain ⟨result, state⟩ := r
  cases result with
  | ok a => rfl
  | error e => cases e <;> rfl

/-- C15. The 16 bytes of a Guid round-trip: a Guid that is given, by
`fromBytes`, the array `toBytes` returned or the array of the byte cast, has
the bytes of the Guid they came from and `operator==` finds the two equal. -/
theorem guid_bytes_round_trip (g start : Guid) :
    start.fromBytes (some g.toBytes) = (Except.ok (), g)
    ∧ start.fromBytes (some g.bytesCast) = (Except.ok (), g)
    ∧ g.eq (start.fromBytes (some g.toBytes)).2 = true
    ∧ g.eq (start.fromBytes (some g.bytesCast)).2 = true := by
  obtain ⟨uuid, size⟩ := g
  have hfrom : start.fromBytes (some uuid) = (Except.ok (), { uuid := uuid, size := size }) := by
    simp [Guid.fromBytes, size, List.take_of_length_le]
  simp only [Guid.toBytes, Guid.bytesCast, hfrom, Guid.eq, compareBytes_self]
  exact ⟨trivial, trivial, rfl, rfl⟩

/-- C16. The string of a Guid round-trips: the Guid constructed from
`g.toString()` is `g`, `operator==` finds it equal to `g` and `operator!=`
does not find it different; the string cast yields the same string as
`toString`. -/
theorem guid_string_round_trip (g : Guid) :
    Guid.ofString g.toString = Except.ok g
    ∧ (∃ made, Guid.ofString g.toString = Except.ok made
        ∧ made.eq g = true ∧ g.eq made = true ∧ made.ne g = false)
    ∧ g.toString = g.stringCast := by
  have hmade : Guid.ofString g.toString = Except.ok g := by
    obtain ⟨uuid, size⟩ := g
    have hparse := parseBytes_toString { uuid := uuid, size := size }
    simp only [Guid.ofString, hparse, size, dite_true]
  refine ⟨hmade, ⟨g, hmade, ?_, ?_, ?_⟩, rfl⟩ <;>
    simp [Guid.eq, Guid.ne, compareBytes_self]

/-- C17. A Guid and a copy of it compare as equal under every operator: `==`,
`<=` and `>=` hold, `<` and `>` do not. -/
theorem guid_copy_compares_equal (g : Guid) :
    g.eq g.copy = true
    ∧ g.le g.copy = true
    ∧ g.ge g.copy = true
    ∧ g.lt g.copy = false
    ∧ g.gt g.copy = false
    ∧ g.ne g.copy = false := by
  simp [Guid.eq, Guid.le, Guid.ge, Guid.lt, Guid.gt, Guid.ne, Guid.copy, compareBytes_self]

theorem catchAsIOException_result {σ α : Type} (result : Except Raised α) (state : σ) :
    (catchAsIOException (result, state)).1
      = (match result with
         | Except.ok value => Except.ok value
         | Except.error raised => Except.error (Raised.io raised.toIOException)) := by
  cases result with
  | ok value => rfl
  | error raised => cases raised <;> rfl

/-- C19. For every base marshaller and every hooks, each of the five
operations of the bytes-message marshaller gives its caller, when the first of
its statements that throws has thrown `raised`, the `IOException` of `raised`:
an `IOException` as it is, an `ActiveMQException` as an `IOException` that
carries it, anything else as a new `IOException`; the statements after the one
that threw are not run; when no statement throws the operation returns, with
the size of the base for `tightMarshal1`.  So whatever an operation throws is
an `IOException`. -/
theorem marshaller_failures_surface_as_IOException {Message : Type}
    (base : MessageMarshaller Message) (hooks : MessageHooks Message)
    (s : MarshalState Message) :
    (ActiveMQBytesMessageMarshaller.tightUnmarshal base hooks s).1
      = (match (base.tightUnmarshal s).1 with
         | Except.error raised => Except.error (Raised.io raised.toIOException)
         | Except.ok () =>
           match (hooks.beforeUnmarshal (base.tightUnmarshal s).2.info).1 with
           | Except.error raised => Except.error (Raised.io raised.toIOException)
           | Except.ok () =>
             match (hooks.afterUnmarshal
               (hooks.beforeUnmarshal (base.tightUnmarshal s).2.info).2).1 with
             | Except.error raised => Except.error (Raised.io raised.toIOException)
             | Except.ok () => Except.ok ())
    ∧ (ActiveMQBytesMessageMarshaller.tightMarshal1 base hooks s).1
      = (match (hooks.beforeMarshal s.info).1 with
         | Except.error raised => Except.error (Raised.io raised.toIOException)
         | Except.ok () =>
           match (base.tightMarshal1 { s with info := (hooks.beforeMarshal s.info).2 }).1 with
           | Except.error raised => Except.error (Raised.io raised.toIOException)
           | Except.ok rc => Except.ok rc)
    ∧ (ActiveMQBytesMessageMarshaller.tightMarshal2 base hooks s).1
      = (match (base.tightMarshal2 s).1 with
         | Except.error raised => Except.error (Raised.io raised.toIOException)
         | Except.ok () =>
           match (hooks.afterMarshal (base.tightMarshal2 s).2.info).1 with
           | Except.error raised => Except.error (Raised.io raised.toIOException)
           | Except.ok () => Except.ok ())
    ∧ (ActiveMQBytesMessageMarshaller.looseUnmarshal base hooks s).1
      = (match (base.looseUnmarshal s).1 with
         | Except.error raised => Except.error (Raised.io raised.toIOException)
         | Except.ok () =>
           match (hooks.beforeUnmarshal (base.looseUnmarshal s).2.info).1 with
           | Except.error raised => Except.error (Raised.io raised.toIOException)
           | Except.ok () =>
             match (hooks.afterUnmarshal
               (hooks.beforeUnmarshal (base.looseUnmarshal s).2.info).2).1 with
             | Except.error raised => Except.error (Raised.io raised.toIOException)
             | Except.ok () => Except.ok ())
    ∧ (ActiveMQBytesMessageMarshaller.looseMarshal base hooks s).1
      = (match (hooks.beforeMarshal s.info).1 with
         | Except.error raised => Except.error (Raised.io raised.toIOException)
         | Except.ok () =>
           match (base.looseMarshal { s with info := (hooks.beforeMarshal s.info).2 }).1 with
           | Except.error raised => Except.error (Raised.io raised.toIOException)
           | Except.ok () =>
             match (hooks.afterMarshal
               (base.looseMarshal { s with info := (hooks.beforeMarshal s.info).2 }).2.info).1
             with
             | Except.error raised => Except.error (Raised.io raised.toIOException)
             | Except.ok () => Except.ok ())
    ∧ (ActiveMQBytesMessageMarshaller.tightUnmarshal base hooks s).surfacesAsIOException = true
    ∧ (ActiveMQBytesMessageMarshaller.tightMarshal1 base hooks s).surfacesAsIOException = true
    ∧ (ActiveMQBytesMessageMarshaller.tightMarshal2 base hooks s).surfacesAsIOException = true
    ∧ (ActiveMQBytesMessageMarshaller.looseUnmarshal base hooks s).surfacesAsIOException = true
    ∧ (ActiveMQBytesMessageMarshaller.looseMarshal base hooks s).surfacesAsIOException = true := by
  refine ⟨?_, ?_, ?_, ?_, ?_, catchAsIOException_surfaces _, catchAsIOException_surfaces _,
    catchAsIOException_surfaces _, catchAsIOException_surfaces _,
    catchAsIOException_surfaces _⟩
  · unfold ActiveMQBytesMessageMarshaller.tightUnmarshal
    rw [catchAsIOException_result]
    simp only [Attempt.next, onInfo]
    rcases h1 : (base.tightUnmarshal s).1 with raised | ⟨⟩
    · rfl
    · simp only []
      rcases h2 : (hooks.beforeUnmarshal (base.tightUnmarshal s).2.info).1 with raised | ⟨⟩
      · rfl
      · simp only []
        rcases h3 : (hooks.afterUnmarshal
          (hooks.beforeUnmarshal (base.tightUnmarshal s).2.info).2).1 with raised | ⟨⟩ <;> rfl
  · unfold ActiveMQBytesMessageMarshaller.tightMarshal1
    rw [catchAsIOException_result]
    simp only [Attempt.next, onInfo]
    rcases h1 : (hooks.beforeMarshal s.info).1 with raised | ⟨⟩
    · rfl
    · simp only []
      rcases h2 : (base.tightMarshal1 { s with info := (hooks.beforeMarshal s.info).2 }).1
        with raised | rc
      · rfl
      · simp
  · unfold ActiveMQBytesMessageMarshaller.tightMarshal2
    rw [catchAsIOException_result]
    simp only [Attempt.next, onInfo]
    rcases h1 : (base.tightMarshal2 s).1 with raised | ⟨⟩
    · rfl
    · simp only []
      rcases h2 : (hooks.afterMarshal (base.tightMarshal2 s).2.info).1 with raised | ⟨⟩ <;> rfl
  · unfold ActiveMQBytesMessageMarshaller.looseUnmarshal
    rw [catchAsIOException_result]
    simp only [Attempt.next, onInfo]
    rcases h1 : (base.looseUnmarshal s).1 with raised | ⟨⟩
    · rfl
    · simp only []
      rcases h2 : (hooks.beforeUnmarshal (base.looseUnmarshal s).2.info).1 with raised | ⟨⟩
      · rfl
      · simp only []
        rcases h3 : (hooks.afterUnmarshal
          (hooks.beforeUnmarshal (base.looseUnmarshal s).2.info).2).1 with raised | ⟨⟩ <;> rfl
  · unfold ActiveMQBytesMessageMarshaller.looseMarshal
    rw [catchAsIOException_result]
    simp only [Attempt.next, onInfo]
    rcases h1 : (hooks.beforeMarshal s.info).1 with raised | ⟨⟩
    · rfl
    · simp only []
      rcases h2 : (base.looseMarshal { s with info := (hooks.beforeMarshal s.info).2 }).1
        with raised | ⟨⟩
      · rfl
      · simp only []
        rcases h3 : (hooks.afterMarshal
          (base.looseMarshal { s with info := (hooks.beforeMarshal s.info).2 }).2.info).1
          with raised | ⟨⟩ <;> rfl

/-! ## Lemmas on `start` and on the worker count -/

theorem workersStarted_append (front back : List Event) :
    workersStarted (front ++ back) = workersStarted front + workersStarted back := by
  simp [workersStarted, List.countP_append]

/-- C21. The value `iterate` returns is true exactly when the parent has no
connected transport and is not closed, the case in which it calls
`doReconnect`, and false otherwise; it is the same whatever `doReconnect`
returns. -/
theorem iterate_result_ignores_doReconnect
    (doReconnect other : FailoverTransport → Bool × FailoverTransport)
    (buildBackups : FailoverTransport → FailoverTransport) (parent : FailoverTransport) :
    (ReconnectTask.iterate doReconnect buildBackups parent).result
      = (parent.connectedTransport.isNone && !parent.closed)
    ∧ ((ReconnectTask.iterate doReconnect buildBackups parent).result = true
        ↔ TaskEvent.doReconnect ∈ (ReconnectTask.iterate doReconnect buildBackups parent).events)
    ∧ ((ReconnectTask.iterate doReconnect buildBackups parent).result = false
        ↔ TaskEvent.buildBackups ∈ (ReconnectTask.iterate doReconnect buildBackups parent).events)
    ∧ (ReconnectTask.iterate doReconnect buildBackups parent).result
      = (ReconnectTask.iterate other buildBackups parent).result := by
  obtain ⟨ct, bk, buf, att, cl⟩ := parent
  cases ct <;> cases cl <;> simp [ReconnectTask.iterate]

theorem commandsWritten_append (front back : List Event) :
    commandsWritten (front ++ back) = commandsWritten front ++ commandsWritten back := by
  simp [commandsWritten, List.filterMap_append]

/-- Counterexample to C22: on a started, open transport with its output stream
set whose writer is `NULL`, a command that is not `NULL` is not written, and
what `oneway` throws is not a `CommandIOException`. -/
theorem oneway_without_writer_writes_nothing :
    writerlessTransport.closed = false
    ∧ writerlessTransport.thread.isSome = true
    ∧ (some sampleCommand).isSome = true
    ∧ writerlessTransport.outputStream.isSome = true
    ∧ commandsWritten (writerlessTransport.oneway (some sampleCommand)).2.log
        = commandsWritten writerlessTransport.log
    ∧ thrownKind (writerlessTransport.oneway (some sampleCommand))
        ≠ some ExceptionKind.CommandIOException := by
  refine ⟨rfl, rfl, rfl, rfl, rfl, ?_⟩
  decide

/-- C22, amended. `oneway` passes the command to the writer, once, exactly
when the transport is not closed, has been started, the command is not
`NULL`, the output stream is set and the writer is set: it then locks the
stream, calls `writeCommand` and unlocks, and returns or throws what the
writer does.  When the transport is closed or not started, or the command is
`NULL`, or the output stream is not set, it throws a `CommandIOException` and
leaves the transport and its log as they were. -/
theorem oneway_writes_iff (t : IOTransport) (command : Option Command) :
    ((t.closed = false ∧ t.thread.isSome = true ∧ command.isSome = true
        ∧ t.outputStream.isSome = true ∧ t.writer.isSome = true) →
      ∃ c o w, command = some c ∧ t.outputStream = some o ∧ t.writer = some w
        ∧ (t.oneway command).2.log = t.log ++ [Event.lockOutputStream o, Event.writeCommand c,
            Event.unlockOutputStream o]
        ∧ commandsWritten (t.oneway command).2.log = commandsWritten t.log ++ [c]
        ∧ (t.oneway command).1
            = (match w.writeThrows c with
               | some e => Except.error e
               | none => Except.ok ()))
    ∧ (¬ (t.closed = false ∧ t.thread.isSome = true ∧ command.isSome = true
        ∧ t.outputStream.isSome = true) →
      thrownKind (t.oneway command) = some ExceptionKind.CommandIOException
      ∧ (t.oneway command).2 = t)
    ∧ ((commandsWritten (t.oneway command).2.log).length = (commandsWritten t.log).length + 1
        ↔ (t.closed = false ∧ t.thread.isSome = true ∧ command.isSome = true
          ∧ t.outputStream.isSome = true ∧ t.writer.isSome = true)) := by
  obtain ⟨l, r, w, el, i, o, cl, th, lg⟩ := t
  cases cl with
  | true => simp [IOTransport.oneway, thrownKind]
  | false =>
    cases th with
    | none => simp [IOTransport.oneway, thrownKind]
    | some th =>
      cases command with
      | none => simp [IOTransport.oneway, thrownKind]
      | some c =>
        cases o with
        | none => simp [IOTransport.oneway, thrownKind]
        | some o =>
          cases w with
          | none =>
            simp [IOTransport.oneway, IOTransport.record, commandsWritten_append,
              commandsWritten]
          | some w =>
            cases hthrow : w.writeThrows c <;>
              simp [IOTransport.oneway, IOTransport.record, hthrow, commandsWritten_append,
                commandsWritten]

/-- Witness of C22, amended: a command sent on the started sample transport
is written once; a `NULL` command is refused and nothing changes. -/
theorem oneway_writes_iff_witness :
    (commandsWritten (startedTransport.oneway (some sampleCommand)).2.log).length
        = (commandsWritten startedTransport.log).length + 1
    ∧ thrownKind (startedTransport.oneway none) = some ExceptionKind.CommandIOException
    ∧ (startedTransport.oneway none).2 = startedTransport :=
  ⟨(oneway_writes_iff startedTransport (some sampleCommand)).2.2.mpr ⟨rfl, rfl, rfl, rfl, rfl⟩,
   ((oneway_writes_iff startedTransport none).2.1 (by simp)).1,
   ((oneway_writes_iff startedTransport none).2.1 (by simp)).2⟩

theorem close_facts (t : IOTransport) :
    t.close.2.writer = t.writer
    ∧ workersStarted t.close.2.log = workersStarted t.log
    ∧ (t.close.2.thread = t.thread ∨ t.close.2.thread = none) := by
  obtain ⟨l, r, w, el, i, o, cl, th, lg⟩ := t
  cases cl with
  | true => simp [IOTransport.close, IOTransport.rethrowAsActiveMQException]
  | false =>
    unfold IOTransport.close
    rw [rethrow_state]
    cases i with
    | none =>
      cases th with
      | none =>
        cases o with
        | none =>
          simp [andThen, IOTransport.markClosed, IOTransport.closeInput,
            IOTransport.joinWorker, IOTransport.closeOutput, IOTransport.record,
            workersStarted, Event.isStartThread, List.countP_append]
        | some o =>
          cases ho : o.closeThrows <;>
          simp [andThen, IOTransport.markClosed, IOTransport.closeInput,
            IOTransport.joinWorker, IOTransport.closeOutput, IOTransport.record,
            workersStarted, Event.isStartThread, List.countP_append, ho]
      | some th =>
        cases hj : th.joinThrows <;> cases o with
        | none =>
          simp [andThen, IOTransport.markClosed, IOTransport.closeInput,
            IOTransport.joinWorker, IOTransport.closeOutput, IOTransport.record,
            workersStarted, Event.isStartThread, List.countP_append, hj]
        | some o =>
          cases ho : o.closeThrows <;>
          simp [andThen, IOTransport.markClosed, IOTransport.closeInput,
            IOTransport.joinWorker, IOTransport.closeOutput, IOTransport.record,
            workersStarted, Event.isStartThread, List.countP_append, hj, ho]
    | some i =>
      cases hi : i.closeThrows <;> cases th with
      | none =>
        cases o with
        | none =>
          simp [andThen, IOTransport.markClosed, IOTransport.closeInput,
            IOTransport.joinWorker, IOTransport.closeOutput, IOTransport.record,
            workersStarted, Event.isStartThread, List.countP_append, hi]
        | some o =>
          cases ho : o.closeThrows <;>
          simp [andThen, IOTransport.markClosed, IOTransport.closeInput,
            IOTransport.joinWorker, IOTransport.closeOutput, IOTransport.record,
            workersStarted, Event.isStartThread, List.countP_append, hi, ho]
      | some th =>
        cases hj : th.joinThrows <;> cases o with
        | none =>
          simp [andThen, IOTransport.markClosed, IOTransport.closeInput,
            IOTransport.joinWorker, IOTransport.closeOutput, IOTransport.record,
            workersStarted, Event.isStartThread, List.countP_append, hi, hj]
        | some o =>
          cases ho : o.closeThrows <;>
          simp [andThen, IOTransport.markClosed, IOTransport.closeInput,
            IOTransport.joinWorker, IOTransport.closeOutput, IOTransport.record,
            workersStarted, Event.isStartThread, List.countP_append, hi, hj, ho]

theorem oneway_facts (t : IOTransport) (command : Option Command) :
    (t.oneway command).2.writer = t.writer
    ∧ workersStarted (t.oneway command).2.log = workersStarted t.log
    ∧ (t.oneway command).2.thread = t.thread
    ∧ (t.oneway command).2.closed = t.closed := by
  unfold IOTransport.oneway
  split
  · simp
  · split
    · simp
    · split
      · simp
      · split
        · simp
        · split
          · simp [IOTransport.record, workersStarted, Event.isStartThread, List.countP_append]
          · split <;>
              simp [IOTransport.record, workersStarted, Event.isStartThread,
                List.countP_append]

theorem start_facts (newThread : Thread) (t : IOTransport) :
    (IOTransport.start newThread t).2.writer = t.writer
    ∧ (IOTransport.start newThread t).2.closed = t.closed
    ∧ (((IOTransport.start newThread t).2.thread = t.thread
        ∧ workersStarted (IOTransport.start newThread t).2.log = workersStarted t.log)
      ∨ (t.closed = false ∧ t.thread = none ∧ t.writer.isSome = true
        ∧ (IOTransport.start newThread t).2.thread = some newThread
        ∧ workersStarted (IOTransport.start newThread t).2.log = workersStarted t.log + 1)) := by
  obtain ⟨l, r, w, el, i, o, cl, th, lg⟩ := t
  cases cl with
  | true => simp [IOTransport.start]
  | false =>
    cases th with
    | some th => simp [IOTransport.start]
    | none =>
      cases i <;> cases o <;> cases r <;> cases w <;>
        try simp [IOTransport.start]
      cases hs : newThread.startThrows <;>
        simp [IOTransport.record, workersStarted, Event.isStartThread, List.countP_append, hs]

theorem call_keeps_one_worker (c : Call) (t : IOTransport)
    (h : workersStarted t.log ≤ 1
      ∧ (workersStarted t.log = 1 → t.thread.isSome = true ∨ t.closed = true)) :
    workersStarted (c.stateAfter t).log ≤ 1
    ∧ (workersStarted (c.stateAfter t).log = 1 →
        (c.stateAfter t).thread.isSome = true ∨ (c.stateAfter t).closed = true) := by
  obtain ⟨hle, hone⟩ := h
  cases c with
  | oneway command =>
    obtain ⟨_, hlog, hthread, hclosed⟩ := oneway_facts t command
    simp only [Call.stateAfter, hlog, hthread, hclosed]
    exact ⟨hle, hone⟩
  | start newThread =>
    obtain ⟨_, hclosed, hcase⟩ := start_facts newThread t
    simp only [Call.stateAfter, hclosed]
    rcases hcase with ⟨hthread, hlog⟩ | ⟨hopen, hnone, _, hthread, hlog⟩
    · rw [hthread, hlog]
      exact ⟨hle, hone⟩
    · rw [hthread, hlog]
      have hzero : workersStarted t.log = 0 := by
        by_contra hne
        have h1 : workersStarted t.log = 1 := by omega
        rcases hone h1 with h' | h'
        · simp [hnone] at h'
        · simp [hopen] at h'
      exact ⟨by omega, fun _ => Or.inl rfl⟩
  | close =>
    obtain ⟨_, hlog, _⟩ := close_facts t
    simp only [Call.stateAfter, hlog]
    exact ⟨hle, fun _ => Or.inr (closed_after_close t)⟩
  | request command => exact ⟨hle, hone⟩

theorem calls_keep_one_worker (calls : List Call) (t : IOTransport)
    (h : workersStarted t.log ≤ 1
      ∧ (workersStarted t.log = 1 → t.thread.isSome = true ∨ t.closed = true)) :
    workersStarted (stateAfterCalls calls t).log ≤ 1 := by
  induction calls generalizing t with
  | nil => exact h.1
  | cons c rest ih =>
    simp only [stateAfterCalls, List.foldl_cons]
    exact ih (c.stateAfter t) (call_keeps_one_worker c t h)

theorem calls_keep_writer (calls : List Call) (t : IOTransport)
    (h : t.thread.isSome = true → t.writer.isSome = true) :
    (stateAfterCalls calls t).thread.isSome = true →
      (stateAfterCalls calls t).writer.isSome = true := by
  induction calls generalizing t with
  | nil => exact h
  | cons c rest ih =>
    simp only [stateAfterCalls, List.foldl_cons]
    apply ih (c.stateAfter t)
    cases c with
    | oneway command =>
      obtain ⟨hwriter, _, hthread, _⟩ := oneway_facts t command
      simp only [Call.stateAfter, hwriter, hthread]
      exact h
    | start newThread =>
      obtain ⟨hwriter, _, hcase⟩ := start_facts newThread t
      simp only [Call.stateAfter, hwriter]
      rcases hcase with ⟨hthread, _⟩ | ⟨_, _, hset, _, _⟩
      · rw [hthread]; exact h
      · exact fun _ => hset
    | close =>
      obtain ⟨hwriter, _, hthread⟩ := close_facts t
      simp only [Call.stateAfter, hwriter]
      rcases hthread with hthread | hthread
      · rw [hthread]; exact h
      · rw [hthread]; simp
    | request command => exact h

/-- C23. `start` throws a `CommandIOException` and leaves the transport as it
was, no worker created, exactly when the transport is closed, or has no thread
yet and lacks a stream, the reader or the writer; on an open transport that has
its thread it returns and changes nothing; otherwise it sets the streams on the
reader and the writer, then creates and starts one worker.  Over any sequence
of calls on a transport that has not been started, at most one worker is ever
started. -/
theorem start_creates_at_most_one_worker (newThread : Thread) (t : IOTransport)
    (calls : List Call) :
    ((thrownKind (IOTransport.start newThread t) = some ExceptionKind.CommandIOException
        ∧ (IOTransport.start newThread t).2 = t)
      ↔ (t.closed = true
        ∨ (t.thread = none
          ∧ (t.inputStream = none ∨ t.outputStream = none ∨ t.reader = none
            ∨ t.writer = none))))
    ∧ (t.closed = false → t.thread.isSome = true →
        IOTransport.start newThread t = (Except.ok (), t))
    ∧ (∀ i o r w, t.closed = false → t.thread = none → t.inputStream = some i →
        t.outputStream = some o → t.reader = some r → t.writer = some w →
        (IOTransport.start newThread t).2
          = { t with
              thread := some newThread
              log := t.log ++ [Event.readerSetInputStream r i, Event.writerSetOutputStream o,
                Event.startThread newThread] }
        ∧ workersStarted (IOTransport.start newThread t).2.log = workersStarted t.log + 1
        ∧ (IOTransport.start newThread t).1
            = (match newThread.startThrows with
               | some e => Except.error e
               | none => Except.ok ()))
    ∧ (t.closed = true →
        thrownKind (IOTransport.start newThread (stateAfterCalls calls t))
          = some ExceptionKind.CommandIOException
        ∧ (IOTransport.start newThread (stateAfterCalls calls t)).2 = t)
    ∧ (t.thread = none → workersStarted t.log = 0 →
        workersStarted (stateAfterCalls calls t).log ≤ 1) := by
  refine ⟨?_, ?_, ?_, ?_, ?_⟩
  · obtain ⟨l, r, w, el, i, o, cl, th, lg⟩ := t
    cases cl with
    | true => simp [IOTransport.start, thrownKind]
    | false =>
      cases th with
      | some th => simp [IOTransport.start, thrownKind]
      | none =>
        cases i <;> cases o <;> cases r <;> cases w <;>
          try simp [IOTransport.start, thrownKind]
        cases hs : newThread.startThrows <;> simp [IOTransport.record]
  · intro hopen hthread
    simp [IOTransport.start, hopen, hthread]
  · intro i o r w hopen hthread hin hout hreader hwriter
    cases hs : newThread.startThrows <;>
      simp [IOTransport.start, IOTransport.record, hopen, hthread, hin, hout, hreader, hwriter,
        hs, workersStarted, Event.isStartThread, List.countP_append]
  · intro hclosed
    rw [stateAfterCalls_of_closed calls t hclosed]
    simp [IOTransport.start, hclosed, thrownKind]
  · intro hthread hzero
    exact calls_keep_one_worker calls t ⟨by omega, fun h => by omega⟩

/-! ## Lemmas on a property read after it was set -/

theorem find_after_replace (entries : List (String × String)) (name value : String)
    (h : entries.any (fun e => e.1 == name) = true) :
    ((entries.map (fun e => if e.1 == name then (e.1, value) else e)).find?
      (fun e => e.1 == name)).map (fun e => e.2) = some value := by
  induction entries with
  | nil => simp at h
  | cons e rest ih =>
    by_cases he : e.1 = name
    · simp [he]
    · have hrest : rest.any (fun e => e.1 == name) = true := by
        simpa [he] using h
      simpa [he] using ih hrest

theorem getProperty_setProperty (p : Properties) (name value : String) :
    (p.setProperty name value).getProperty name = some value := by
  unfold Properties.setProperty Properties.getProperty
  by_cases h : p.hasProperty name = true
  · rw [if_pos h]
    exact find_after_replace p.entries name value h
  · rw [if_neg h]
    have hnone : p.entries.find? (fun e => e.1 == name) = none := by
      simp only [Properties.hasProperty, Bool.not_eq_true, List.any_eq_false] at h
      simpa using h
    simp [List.find?_append, hnone]

theorem hasProperty_setProperty (p : Properties) (name value : String) :
    (p.setProperty name value).hasProperty name = true := by
  have h := getProperty_setProperty p name value
  unfold Properties.getProperty at h
  unfold Properties.hasProperty
  cases hfind : (p.setProperty name value).entries.find? (fun e => e.1 == name) with
  | none => simp [hfind] at h
  | some e =>
    have hmem := List.mem_of_find?_eq_some hfind
    have hkey := List.find?_some hfind
    exact List.any_eq_true.mpr ⟨e, hmem, hkey⟩

theorem getStrictPropertyValue_after_set {TYPE : Type} (extract : String → Option TYPE)
    (m : StompMessage) (name text : String)
    (h : CommandConstants.isStompHeader name = false) :
    StompMessage.getStrictPropertyValue extract (m.setPropertyValue name text) name
      = (match extract (cString text) with
         | none =>
           (Except.error ⟨ExceptionKind.RuntimeException,
             "Error extracting property from string"⟩, m.setPropertyValue name text)
         | some value => (Except.ok value, m.setPropertyValue name text)) := by
  have hhas : (m.setPropertyValue name text).frame.properties.hasProperty name = true :=
    hasProperty_setProperty m.frame.properties name text
  have hget : (m.setPropertyValue name text).getPropertyValue name = some (cString text) := by
    simp [StompMessage.getPropertyValue, StompMessage.setPropertyValue,
      getProperty_setProperty]
  simp only [StompMessage.getStrictPropertyValue, StompMessage.testProperty, h, hhas, hget]
  cases extract (cString text) <;> simp

theorem cString_of_no_nul (text : String) (h : ∀ c ∈ text.toList, c.toNat ≠ 0) :
    cString text = text := by
  unfold cString
  have htake : text.toList.takeWhile (fun c => c.toNat != 0) = text.toList := by
    rw [List.takeWhile_eq_self_iff]
    intro c hc
    simpa using h c hc
  rw [htake]
  rfl

theorem extractString_cases (v : String) :
    (extractString v = none ∧ ∀ c ∈ v.toList, isSpace c = true)
    ∨ (∃ token lead rest, extractString v = some token
        ∧ v.toList = lead ++ token.toList ++ rest
        ∧ (∀ c ∈ lead, isSpace c = true)
        ∧ token.toList ≠ []
        ∧ (∀ c ∈ token.toList, isSpace c = false)
        ∧ (∀ c, rest.head? = some c → isSpace c = true)) := by
  unfold extractString
  by_cases hempty :
      ((v.toList.dropWhile isSpace).takeWhile (fun c => !isSpace c)).isEmpty = true
  · left
    refine ⟨if_pos hempty, ?_⟩
    have hnil : (v.toList.dropWhile isSpace).takeWhile (fun c => !isSpace c) = [] :=
      List.isEmpty_iff.mp hempty
    have hdrop : v.toList.dropWhile isSpace = [] := by
      cases hd : v.toList.dropWhile isSpace with
      | nil => rfl
      | cons c rest =>
        have hhead := List.head?_dropWhile_not isSpace v.toList
        rw [hd] at hhead hnil
        simp only [List.head?_cons] at hhead
        simp [List.takeWhile_cons, hhead] at hnil
    exact List.dropWhile_eq_nil_iff.mp hdrop
  · right
    refine ⟨String.mk ((v.toList.dropWhile isSpace).takeWhile (fun c => !isSpace c)),
      v.toList.takeWhile isSpace,
      (v.toList.dropWhile isSpace).dropWhile (fun c => !isSpace c), if_neg hempty, ?_,
      fun c hc => List.mem_takeWhile_imp hc, ?_, ?_, ?_⟩
    · show v.toList = _ ++ (v.toList.dropWhile isSpace).takeWhile (fun c => !isSpace c) ++ _
      rw [List.append_assoc, List.takeWhile_append_dropWhile, List.takeWhile_append_dropWhile]
    · intro hnil
      apply hempty
      show List.isEmpty ((v.toList.dropWhile isSpace).takeWhile (fun c => !isSpace c)) = true
      rw [show (v.toList.dropWhile isSpace).takeWhile (fun c => !isSpace c) = [] from hnil]
      rfl
    · intro c hc
      have h := List.mem_takeWhile_imp
        (show c ∈ (v.toList.dropWhile isSpace).takeWhile (fun c => !isSpace c) from hc)
      simpa using h
    · intro c hc
      have hhead := List.head?_dropWhile_not (fun c => !isSpace c)
        (v.toList.dropWhile isSpace)
      rw [hc] at hhead
      simpa using hhead

theorem setStringProperty_ok (m : StompMessage) (name v : String)
    (hname : CommandConstants.isStompHeader name = false) :
    m.setStringProperty name v = (Except.ok (), m.setPropertyValue name v) := by
  simp [StompMessage.setStringProperty, StompMessage.testProperty, hname]

/-- C24. For a name that is not reserved and a value `v` without NUL,
`getStringProperty` after `setStringProperty` returns the first token of `v`
that white space delimits: `v` is white space, then the token, which is not
empty and has no white space, then nothing or white space and more.  It
returns `v` itself exactly when `v` is not empty and has no white space, a
shorter text when `v` has white space and a token, and throws a
`RuntimeException` exactly when `v` is empty or all white space. -/
theorem getStringProperty_after_set (m : StompMessage) (name v : String)
    (hname : CommandConstants.isStompHeader name = false)
    (hnul : ∀ c ∈ v.toList, c.toNat ≠ 0) :
    (m.setStringProperty name v).1 = Except.ok ()
    ∧ ((m.setStringProperty name v).2.getStringProperty name
          = (Except.ok v, (m.setStringProperty name v).2)
        ↔ v.toList ≠ [] ∧ ∀ c ∈ v.toList, isSpace c = false)
    ∧ ((m.setStringProperty name v).2.getStringProperty name
          = (Except.error ⟨ExceptionKind.RuntimeException,
              "Error extracting property from string"⟩, (m.setStringProperty name v).2)
        ↔ ∀ c ∈ v.toList, isSpace c = true)
    ∧ (∀ token, (m.setStringProperty name v).2.getStringProperty name
          = (Except.ok token, (m.setStringProperty name v).2) →
        (∃ lead rest, v.toList = lead ++ token.toList ++ rest
          ∧ (∀ c ∈ lead, isSpace c = true)
          ∧ token.toList ≠ []
          ∧ (∀ c ∈ token.toList, isSpace c = false)
          ∧ (∀ c, rest.head? = some c → isSpace c = true))
        ∧ ((∃ c ∈ v.toList, isSpace c = true) → token.toList.length < v.toList.length))
    ∧ ((∃ token, (m.setStringProperty name v).2.getStringProperty name
          = (Except.ok token, (m.setStringProperty name v).2))
      ∨ (m.setStringProperty name v).2.getStringProperty name
          = (Except.error ⟨ExceptionKind.RuntimeException,
              "Error extracting property from string"⟩, (m.setStringProperty name v).2)) := by
  rw [setStringProperty_ok m name v hname]
  have hget := getStrictPropertyValue_after_set extractString m name v hname
  rw [cString_of_no_nul v hnul] at hget
  simp only [StompMessage.getStringProperty]
  rcases extractString_cases v with ⟨hnone, hall⟩ | ⟨token, lead, rest, hsome, hsplit, hlead,
    hne, htoken, hrest⟩
  · rw [hnone] at hget
    rw [hget]
    refine ⟨trivial, ?_, ?_, ?_, Or.inr rfl⟩
    · constructor
      · intro h
        simp at h
      · rintro ⟨hv, hno⟩
        cases hl : v.toList with
        | nil => exact absurd hl hv
        | cons c tail =>
          have hc : c ∈ v.toList := by rw [hl]; simp
          have h1 := hall c hc
          rw [hno c hc] at h1
          exact absurd h1 (by simp)
    · exact ⟨fun _ => hall, fun _ => rfl⟩
    · intro token h
      simp at h
  · rw [hsome] at hget
    rw [hget]
    have hlen : v.toList.length = lead.length + token.toList.length + rest.length := by
      rw [hsplit, List.length_append, List.length_append]
    refine ⟨trivial, ?_, ?_, ?_, Or.inl ⟨token, rfl⟩⟩
    · constructor
      · intro h
        have htv : token = v := by
          have h1 := congrArg Prod.fst h
          simpa using h1
        subst htv
        exact ⟨hne, htoken⟩
      · rintro ⟨_, hno⟩
        have hleadnil : lead = [] := by
          cases hl : lead with
          | nil => rfl
          | cons c tail =>
            have hc : c ∈ lead := by rw [hl]; simp
            have hcv : c ∈ v.toList := by rw [hsplit]; simp [hc]
            have h1 := hlead c hc
            rw [hno c hcv] at h1
            exact absurd h1 (by simp)
        have hrestnil : rest = [] := by
          cases hl : rest with
          | nil => rfl
          | cons c tail =>
            have hcv : c ∈ v.toList := by rw [hsplit, hl]; simp
            have h1 := hrest c (by rw [hl]; rfl)
            rw [hno c hcv] at h1
            exact absurd h1 (by simp)
        have hlist : token.toList = v.toList := by
          rw [hsplit, hleadnil, hrestnil]
          simp
        have htv : token = v := by
          cases token
          cases v
          simp only [String.toList] at hlist
          rw [hlist]
        rw [htv]
    · constructor
      · intro h
        simp at h
      · intro hws
        cases hl : token.toList with
        | nil => exact absurd hl hne
        | cons c tail =>
          have hc : c ∈ token.toList := by rw [hl]; simp
          have hcv : c ∈ v.toList := by
            rw [hsplit]
            exact List.mem_append_left _ (List.mem_append_right _ hc)
          have h1 := hws c hcv
          rw [htoken c hc] at h1
          exact absurd h1 (by simp)
    · intro token' h
      have htt : token = token' := by
        have h1 := congrArg Prod.fst h
        simpa using h1
      subst htt
      refine ⟨⟨lead, rest, hsplit, hlead, hne, htoken, hrest⟩, ?_⟩
      rintro ⟨c, hcv, hcs⟩
      rw [hsplit] at hcv
      simp only [List.mem_append] at hcv
      rcases hcv with (hcl | hct) | hcr
      · have : 0 < lead.length := List.length_pos_of_mem hcl
        omega
      · rw [htoken c hct] at hcs
        exact absurd hcs (by simp)
      · have : 0 < rest.length := List.length_pos_of_mem hcr
        omega

set_option maxRecDepth 100000 in
theorem extractByte_insertByte :
    ∀ b : Nat, b < 256 →
      extractByte (cString (StompMessage.insertByte b))
        = (if b = 0 ∨ b = 32 ∨ (9 ≤ b ∧ b ≤ 13) then none else some b) := by
  decide

/-! ## Lemmas on decimal text -/

theorem isDigit_bounds (c : Char) (h : c.isDigit = true) : 48 ≤ c.toNat ∧ c.toNat ≤ 57 := by
  simp only [Char.isDigit, Bool.and_eq_true, decide_eq_true_eq] at h
  obtain ⟨h1, h2⟩ := h
  have h1' : (48 : UInt32).toNat ≤ c.val.toNat := h1
  have h2' : c.val.toNat ≤ (57 : UInt32).toNat := h2
  exact ⟨h1', h2'⟩

theorem digit_not_special (c : Char) (h : c.isDigit = true) :
    isSpace c = false ∧ c ≠ '-' ∧ c ≠ '+' ∧ c.toNat ≠ 0 := by
  obtain ⟨h1, h2⟩ := isDigit_bounds c h
  refine ⟨?_, ?_, ?_, by omega⟩
  · simp only [isSpace, Bool.or_eq_false_iff, beq_eq_false_iff_ne, ne_eq, Bool.and_eq_false_imp,
      decide_eq_true_eq, decide_eq_false_iff_not, not_le]
    constructor <;> intros <;> omega
  · intro hc
    rw [hc] at h1
    exact absurd h1 (by decide)
  · intro hc
    rw [hc] at h1
    exact absurd h1 (by decide)

theorem digitChar_facts : ∀ d : Nat, d < 10 →
    (Nat.digitChar d).isDigit = true ∧ (Nat.digitChar d).toNat - 48 = d := by
  decide

theorem digitsValue_append (front : List Char) (c : Char) :
    digitsValue (front ++ [c]) = 10 * digitsValue front + (c.toNat - 48) := by
  simp [digitsValue, List.foldl_append]

theorem toDigitsCore_spec (fuel n : Nat) (ds : List Char) (h : n < fuel) :
    ∃ digits, Nat.toDigitsCore 10 fuel n ds = digits ++ ds
      ∧ digits ≠ []
      ∧ (∀ c ∈ digits, c.isDigit = true)
      ∧ digitsValue digits = n := by
  induction fuel generalizing n ds with
  | zero => omega
  | succ fuel ih =>
    have hd := digitChar_facts (n % 10) (Nat.mod_lt n (by decide))
    by_cases hq : n / 10 = 0
    · refine ⟨[Nat.digitChar (n % 10)], by simp [Nat.toDigitsCore, hq], by simp, ?_, ?_⟩
      · intro c hc
        simp only [List.mem_singleton] at hc
        rw [hc]
        exact hd.1
      · simp only [digitsValue, List.foldl_cons, List.foldl_nil, hd.2]
        omega
    · obtain ⟨digits, hcore, _, hall, hvalue⟩ :=
        ih (n / 10) (Nat.digitChar (n % 10) :: ds) (by omega)
      refine ⟨digits ++ [Nat.digitChar (n % 10)], by simp [Nat.toDigitsCore, hq, hcore],
        by simp, ?_, ?_⟩
      · intro c hc
        simp only [List.mem_append, List.mem_singleton] at hc
        rcases hc with hc | hc
        · exact hall c hc
        · rw [hc]
          exact hd.1
      · rw [digitsValue_append, hvalue, hd.2]
        omega

theorem repr_spec (n : Nat) :
    ∃ digits, (Nat.repr n).toList = digits
      ∧ digits ≠ []
      ∧ (∀ c ∈ digits, c.isDigit = true)
      ∧ digitsValue digits = n := by
  obtain ⟨digits, hcore, hne, hall, hvalue⟩ := toDigitsCore_spec (n + 1) n [] (by omega)
  refine ⟨digits, ?_, hne, hall, hvalue⟩
  show Nat.toDigits 10 n = digits
  simpa [Nat.toDigits] using hcore

theorem extractInteger_digits (lo hi : Int) (digits : List Char) (hne : digits ≠ [])
    (hall : ∀ c ∈ digits, c.isDigit = true) :
    extractInteger lo hi (String.mk digits)
      = (if lo ≤ (digitsValue digits : Int) ∧ (digitsValue digits : Int) ≤ hi
         then some (digitsValue digits : Int) else none) := by
  cases hd : digits with
  | nil => exact absurd hd hne
  | cons c tail =>
    have hc : c.isDigit = true := hall c (by rw [hd]; simp)
    obtain ⟨hspace, hminus, hplus, _⟩ := digit_not_special c hc
    have htake : (c :: tail).takeWhile Char.isDigit = c :: tail := by
      rw [List.takeWhile_eq_self_iff]
      intro x hx
      exact hall x (by rw [hd]; exact hx)
    simp [extractInteger, hspace, hminus, hplus, htake]

theorem extractInteger_minus_digits (lo hi : Int) (digits : List Char) (hne : digits ≠ [])
    (hall : ∀ c ∈ digits, c.isDigit = true) :
    extractInteger lo hi (String.mk ('-' :: digits))
      = (if lo ≤ -(digitsValue digits : Int) ∧ -(digitsValue digits : Int) ≤ hi
         then some (-(digitsValue digits : Int)) else none) := by
  have htake : digits.takeWhile Char.isDigit = digits := by
    rw [List.takeWhile_eq_self_iff]
    exact hall
  have hspace : isSpace '-' = false := by decide
  cases hd : digits with
  | nil => exact absurd hd hne
  | cons c tail =>
    rw [hd] at htake
    simp [extractInteger, hspace, htake]

theorem insertInteger_text (n : Int) :
    ∃ digits, digits ≠ [] ∧ (∀ c ∈ digits, c.isDigit = true)
      ∧ ((0 ≤ n ∧ StompMessage.insertInteger n = String.mk digits
            ∧ (digitsValue digits : Int) = n)
        ∨ (n < 0 ∧ StompMessage.insertInteger n = String.mk ('-' :: digits)
            ∧ -(digitsValue digits : Int) = n)) := by
  cases n with
  | ofNat k =>
    obtain ⟨digits, htext, hne, hall, hvalue⟩ := repr_spec k
    refine ⟨digits, hne, hall, Or.inl ⟨Int.ofNat_nonneg k, ?_, ?_⟩⟩
    · show Nat.repr k = String.mk digits
      rw [← htext]
      rfl
    · rw [hvalue]
      rfl
  | negSucc k =>
    obtain ⟨digits, htext, hne, hall, hvalue⟩ := repr_spec (k + 1)
    refine ⟨digits, hne, hall, Or.inr ⟨Int.negSucc_lt_zero k, ?_, ?_⟩⟩
    · show "-" ++ Nat.repr (k + 1) = String.mk ('-' :: digits)
      rw [← htext]
      rfl
    · rw [hvalue]
      rfl

theorem extractInteger_insertInteger (lo hi n : Int) (hlo : lo ≤ n) (hhi : n ≤ hi) :
    extractInteger lo hi (cString (StompMessage.insertInteger n)) = some n := by
  obtain ⟨digits, hne, hall, ⟨_, htext, hvalue⟩ | ⟨_, htext, hvalue⟩⟩ := insertInteger_text n
  · have hnul : cString (String.mk digits) = String.mk digits := by
      apply cString_of_no_nul
      intro c hc
      exact (digit_not_special c (hall c hc)).2.2.2
    rw [htext, hnul, extractInteger_digits lo hi digits hne hall, hvalue]
    simp [hlo, hhi]
  · have hnul : cString (String.mk ('-' :: digits)) = String.mk ('-' :: digits) := by
      apply cString_of_no_nul
      intro c hc
      simp only [String.toList, List.mem_cons] at hc
      rcases hc with hc | hc
      · rw [hc]; decide
      · exact (digit_not_special c (hall c hc)).2.2.2
    rw [htext, hnul, extractInteger_minus_digits lo hi digits hne hall, hvalue]
    simp [hlo, hhi]

theorem setStrictPropertyValue_ok {TYPE : Type} (insert : TYPE → String) (m : StompMessage)
    (name : String) (value : TYPE) (hname : CommandConstants.isStompHeader name = false) :
    StompMessage.setStrictPropertyValue insert m name value
      = (Except.ok (), m.setPropertyValue name (insert value)) := by
  simp [StompMessage.setStrictPropertyValue, StompMessage.testProperty, hname]

/-- Witness of C24: the value `red` comes back whole, the value ` dark red`
comes back as `dark`, and a value of two spaces makes the getter throw. -/
theorem getStringProperty_after_set_witness :
    CommandConstants.isStompHeader "colour" = false
    ∧ (sampleMessage.setStringProperty "colour" "red").2.getStringProperty "colour"
        = (Except.ok "red", (sampleMessage.setStringProperty "colour" "red").2)
    ∧ (sampleMessage.setStringProperty "colour" " dark red").2.getStringProperty "colour"
        = (Except.ok "dark", (sampleMessage.setStringProperty "colour" " dark red").2)
    ∧ (sampleMessage.setStringProperty "colour" "  ").2.getStringProperty "colour"
        = (Except.error ⟨ExceptionKind.RuntimeException,
            "Error extracting property from string"⟩,
            (sampleMessage.setStringProperty "colour" "  ").2) :=
  ⟨by decide,
   (getStringProperty_after_set sampleMessage "colour" "red" (by decide) (by decide)).2.1.mpr
     (by decide),
   by decide,
   (getStringProperty_after_set sampleMessage "colour" "  " (by decide) (by decide)).2.2.1.mpr
     (by decide)⟩

/-- C25. For a name that is not reserved and a byte `b`, `setByteProperty`
stores the one character with the code `b`, and `getByteProperty` afterwards
returns `b` when `b` is neither 0 nor a white-space code (32, 9 to 13) and
throws a `RuntimeException` when it is. -/
theorem getByteProperty_after_set (m : StompMessage) (name : String) (b : Nat)
    (hname : CommandConstants.isStompHeader name = false) (hb : b < 256) :
    (m.setByteProperty name b).1 = Except.ok ()
    ∧ (m.setByteProperty name b).2.frame.properties.getProperty name
        = some (String.singleton (Char.ofNat b))
    ∧ (m.setByteProperty name b).2.getByteProperty name
        = (if b = 0 ∨ b = 32 ∨ (9 ≤ b ∧ b ≤ 13) then
            (Except.error ⟨ExceptionKind.RuntimeException,
              "Error extracting property from string"⟩, (m.setByteProperty name b).2)
          else (Except.ok b, (m.setByteProperty name b).2)) := by
  have hset : m.setByteProperty name b
      = (Except.ok (), m.setPropertyValue name (StompMessage.insertByte b)) :=
    setStrictPropertyValue_ok StompMessage.insertByte m name b hname
  rw [hset]
  refine ⟨rfl, ?_, ?_⟩
  · exact getProperty_setProperty m.frame.properties name (StompMessage.insertByte b)
  · show StompMessage.getStrictPropertyValue extractByte _ name = _
    rw [getStrictPropertyValue_after_set extractByte m name _ hname,
      extractByte_insertByte b hb]
    by_cases hcase : b = 0 ∨ b = 32 ∨ (9 ≤ b ∧ b ≤ 13)
    · simp only [if_pos hcase]
    · simp only [if_neg hcase]

/-- Witness of C25: the byte 65 comes back, the bytes 0 and 32 make the getter
throw. -/
theorem getByteProperty_after_set_witness :
    CommandConstants.isStompHeader "grade" = false
    ∧ (sampleMessage.setByteProperty "grade" 65).2.getByteProperty "grade"
        = (Except.ok 65, (sampleMessage.setByteProperty "grade" 65).2)
    ∧ thrownKind ((sampleMessage.setByteProperty "grade" 0).2.getByteProperty "grade")
        = some ExceptionKind.RuntimeException
    ∧ thrownKind ((sampleMessage.setByteProperty "grade" 32).2.getByteProperty "grade")
        = some ExceptionKind.RuntimeException :=
  ⟨by decide,
   (getByteProperty_after_set sampleMessage "grade" 65 (by decide) (by decide)).2.2,
   by decide, by decide⟩

/-- C26. For a name that is not reserved, an integer set with `setIntProperty`
comes back from `getIntProperty` when it is a 32-bit signed value, one set with
`setShortProperty` comes back from `getShortProperty` when it is a 16-bit
signed value, and one set with `setLongProperty` comes back from
`getLongProperty` when it is a 64-bit signed value, negative values
included. -/
theorem integer_properties_round_trip (m : StompMessage) (name : String) (n : Int)
    (hname : CommandConstants.isStompHeader name = false) :
    (-2147483648 ≤ n → n ≤ 2147483647 →
      (m.setIntProperty name n).1 = Except.ok ()
      ∧ (m.setIntProperty name n).2.getIntProperty name
          = (Except.ok n, (m.setIntProperty name n).2))
    ∧ (-32768 ≤ n → n ≤ 32767 →
      (m.setShortProperty name n).1 = Except.ok ()
      ∧ (m.setShortProperty name n).2.getShortProperty name
          = (Except.ok n, (m.setShortProperty name n).2))
    ∧ (-9223372036854775808 ≤ n → n ≤ 9223372036854775807 →
      (m.setLongProperty name n).1 = Except.ok ()
      ∧ (m.setLongProperty name n).2.getLongProperty name
          = (Except.ok n, (m.setLongProperty name n).2)) := by
  have hset := setStrictPropertyValue_ok StompMessage.insertInteger m name n hname
  have hget : ∀ lo hi : Int, lo ≤ n → n ≤ hi →
      StompMessage.getStrictPropertyValue (extractInteger lo hi)
          (m.setPropertyValue name (StompMessage.insertInteger n)) name
        = (Except.ok n, m.setPropertyValue name (StompMessage.insertInteger n)) := by
    intro lo hi hlo hhi
    rw [getStrictPropertyValue_after_set (extractInteger lo hi) m name _ hname,
      extractInteger_insertInteger lo hi n hlo hhi]
  refine ⟨?_, ?_, ?_⟩
  · intro hlo hhi
    simp only [StompMessage.setIntProperty, StompMessage.getIntProperty, hset]
    exact ⟨trivial, hget _ _ hlo hhi⟩
  · intro hlo hhi
    simp only [StompMessage.setShortProperty, StompMessage.getShortProperty, hset]
    exact ⟨trivial, hget _ _ hlo hhi⟩
  · intro hlo hhi
    simp only [StompMessage.setLongProperty, StompMessage.getLongProperty, hset]
    exact ⟨trivial, hget _ _ hlo hhi⟩

/-- Witness of C26: the values -42, -32768 and 9223372036854775807 come back
from the int, short and long property. -/
theorem integer_properties_round_trip_witness :
    CommandConstants.isStompHeader "count" = false
    ∧ (sampleMessage.setIntProperty "count" (-42)).2.getIntProperty "count"
        = (Except.ok (-42), (sampleMessage.setIntProperty "count" (-42)).2)
    ∧ (sampleMessage.setShortProperty "count" (-32768)).2.getShortProperty "count"
        = (Except.ok (-32768), (sampleMessage.setShortProperty "count" (-32768)).2)
    ∧ (sampleMessage.setLongProperty "count" 9223372036854775807).2.getLongProperty "count"
        = (Except.ok 9223372036854775807,
            (sampleMessage.setLongProperty "count" 9223372036854775807).2) :=
  ⟨by decide,
   ((integer_properties_round_trip sampleMessage "count" (-42) (by decide)).1
     (by decide) (by decide)).2,
   ((integer_properties_round_trip sampleMessage "count" (-32768) (by decide)).2.1
     (by decide) (by decide)).2,
   ((integer_properties_round_trip sampleMessage "count" 9223372036854775807
     (by decide)).2.2 (by decide) (by decide)).2⟩

/-! ## Lemmas on the marshaller -/

theorem catchAsIOException_state {σ α : Type} (r : Attempt σ α) :
    (catchAsIOException r).2 = r.2 := by
  obtain ⟨result, state⟩ := r
  cases result with
  | ok a => rfl
  | error e => cases e <;> rfl

theorem onInfo_fields {Message : Type} (hook : Message → Attempt Message Unit)
    (s : MarshalState Message) :
    (onInfo hook s).2.dataOut = s.dataOut ∧ (onInfo hook s).2.bs = s.bs
    ∧ (onInfo hook s).2.dataIn = s.dataIn :=
  ⟨rfl, rfl, rfl⟩

/-- C27. For a bytes message on which `beforeMarshal` returned, `tightMarshal1`
returns the size the base `tightMarshal1` returns for the message the hook
left, and leaves the boolean stream and the rest of the state as the base left
them; `tightMarshal2` and `looseMarshal` leave in `dataOut` the bytes the base
operation wrote, and `tightMarshal2` leaves the boolean stream as the base
did.  So when the base writes in pass 2 as many bytes as its pass 1 returned,
so does this marshaller. -/
theorem bytes_marshaller_adds_no_fields {Message : Type}
    (base : MessageMarshaller Message) (hooks : MessageHooks Message)
    (s later : MarshalState Message)
    (hbefore : (hooks.beforeMarshal s.info).1 = Except.ok ()) :
    (∀ rc after,
        base.tightMarshal1 { s with info := (hooks.beforeMarshal s.info).2 }
          = (Except.ok rc, after) →
        ActiveMQBytesMessageMarshaller.tightMarshal1 base hooks s = (Except.ok rc, after))
    ∧ (ActiveMQBytesMessageMarshaller.tightMarshal1 base hooks s).2
        = (base.tightMarshal1 { s with info := (hooks.beforeMarshal s.info).2 }).2
    ∧ (ActiveMQBytesMessageMarshaller.tightMarshal2 base hooks later).2.dataOut
        = (base.tightMarshal2 later).2.dataOut
    ∧ (ActiveMQBytesMessageMarshaller.tightMarshal2 base hooks later).2.bs
        = (base.tightMarshal2 later).2.bs
    ∧ (ActiveMQBytesMessageMarshaller.looseMarshal base hooks s).2.dataOut
        = (base.looseMarshal { s with info := (hooks.beforeMarshal s.info).2 }).2.dataOut
    ∧ (∀ rc after,
        base.tightMarshal1 { s with info := (hooks.beforeMarshal s.info).2 }
          = (Except.ok rc, after) →
        ((base.tightMarshal2 later).2.dataOut.length : Int) = later.dataOut.length + rc →
        (ActiveMQBytesMessageMarshaller.tightMarshal1 base hooks s).1 = Except.ok rc
        ∧ ((ActiveMQBytesMessageMarshaller.tightMarshal2 base hooks later).2.dataOut.length : Int)
            = later.dataOut.length + rc) := by
  have hpass1 : ∀ rc after,
      base.tightMarshal1 { s with info := (hooks.beforeMarshal s.info).2 }
        = (Except.ok rc, after) →
      ActiveMQBytesMessageMarshaller.tightMarshal1 base hooks s = (Except.ok rc, after) := by
    intro rc after hbase
    simp [ActiveMQBytesMessageMarshaller.tightMarshal1, Attempt.next, onInfo, hbefore, hbase,
      catchAsIOException]
  have hstate1 : (ActiveMQBytesMessageMarshaller.tightMarshal1 base hooks s).2
      = (base.tightMarshal1 { s with info := (hooks.beforeMarshal s.info).2 }).2 := by
    unfold ActiveMQBytesMessageMarshaller.tightMarshal1
    rw [catchAsIOException_state]
    simp only [Attempt.next, onInfo, hbefore]
    cases (base.tightMarshal1 { s with info := (hooks.beforeMarshal s.info).2 }).1 <;> rfl
  have hout2 : (ActiveMQBytesMessageMarshaller.tightMarshal2 base hooks later).2.dataOut
      = (base.tightMarshal2 later).2.dataOut := by
    unfold ActiveMQBytesMessageMarshaller.tightMarshal2
    rw [catchAsIOException_state]
    simp only [Attempt.next]
    cases (base.tightMarshal2 later).1 <;> rfl
  have hbs2 : (ActiveMQBytesMessageMarshaller.tightMarshal2 base hooks later).2.bs
      = (base.tightMarshal2 later).2.bs := by
    unfold ActiveMQBytesMessageMarshaller.tightMarshal2
    rw [catchAsIOException_state]
    simp only [Attempt.next]
    cases (base.tightMarshal2 later).1 <;> rfl
  refine ⟨hpass1, hstate1, hout2, hbs2, ?_, ?_⟩
  · unfold ActiveMQBytesMessageMarshaller.looseMarshal
    rw [catchAsIOException_state]
    simp only [Attempt.next, onInfo, hbefore]
    cases (base.looseMarshal { s with info := (hooks.beforeMarshal s.info).2 }).1 <;> rfl
  · intro rc after hbase hsize
    rw [hpass1 rc after hbase, hout2]
    exact ⟨rfl, hsize⟩

/-- Witness of C27: the sample message of five bytes; pass 1 returns 6 and
pass 2 writes 6 bytes. -/
theorem bytes_marshaller_adds_no_fields_witness :
    (sampleHooks.beforeMarshal sampleMarshalState.info).1 = Except.ok ()
    ∧ (ActiveMQBytesMessageMarshaller.tightMarshal1 sampleMarshaller sampleHooks
        sampleMarshalState).1 = Except.ok 6
    ∧ ((ActiveMQBytesMessageMarshaller.tightMarshal2 sampleMarshaller sampleHooks
        sampleMarshalState).2.dataOut.length : Int) = sampleMarshalState.dataOut.length + 6 :=
  ⟨rfl,
   ((bytes_marshaller_adds_no_fields sampleMarshaller sampleHooks sampleMarshalState
      sampleMarshalState rfl).2.2.2.2.2 6 _ rfl (by decide)).1,
   ((bytes_marshaller_adds_no_fields sampleMarshaller sampleHooks sampleMarshalState
      sampleMarshalState rfl).2.2.2.2.2 6 _ rfl (by decide)).2⟩

/-- Witness of C23: `start` on the wired sample transport creates one worker,
a second `start` changes nothing, and after `close` a `start` throws. -/
theorem start_creates_at_most_one_worker_witness :
    workersStarted startedTransport.log = workersStarted wiredTransport.log + 1
    ∧ IOTransport.start goodThread startedTransport = (Except.ok (), startedTransport)
    ∧ thrownKind (IOTransport.start goodThread startedTransport.close.2)
        = some ExceptionKind.CommandIOException
    ∧ workersStarted
        (stateAfterCalls [Call.start goodThread, Call.start goodThread, Call.close,
          Call.start goodThread] wiredTransport).log ≤ 1 :=
  have h := start_creates_at_most_one_worker goodThread wiredTransport
    [Call.start goodThread, Call.start goodThread, Call.close, Call.start goodThread]
  have hs := start_creates_at_most_one_worker goodThread startedTransport []
  have hc := start_creates_at_most_one_worker goodThread startedTransport.close.2 []
  ⟨(h.2.2.1 (goodStream 4) (goodStream 5) ⟨3⟩ ⟨fun _ => none⟩ rfl rfl rfl rfl rfl rfl).2.1,
   hs.2.1 rfl rfl,
   (hc.2.2.2.1 rfl).1,
   h.2.2.2.2 rfl rfl⟩

end ActiveMQ
